import Mathlib

/-!
Verification of the NESDA PAR-header-to-BIDS inference scripts.

This file gives a shallow embedding, in Lean 4, of the inference and merge
logic of the repository (`batch_bids_par_updater.py`,
`nesda_W6_bids_par_update.py`, `nesda_json_updater.py`,
`nesda_single_subject_updater.py`, `bids_par_json_updater.py`) and proves or
refutes the specification claims about it.

Conventions of the embedding:
* Python strings are `String` / `List Char`; the regular-expression searches
  performed with `re.search` are implemented by a small token-pattern scanner
  (`matchToks` / `searchToks`) that reproduces the exact patterns used by the
  source.
* Python floats are modelled as exact rationals `ℚ`; `round(x, k)` is
  `roundTo k`.
* Python dicts (the JSON sidecar and the extracted field set) are ordered
  association lists `List (String × JValue)`; assignment `d[k] = v` is
  `setKey`, which replaces the first binding of `k` in place or appends a new
  binding at the end, exactly as CPython dict assignment behaves.
* Calls to `datetime.now()` are passed in as explicit parameters.
-/

/-! ## Basic character and string utilities -/

/-- The characters matched by Python's `\s` (ASCII range), also the
characters removed by `str.strip()` and split on by `str.split()`. -/
def isPySpace (c : Char) : Bool :=
  c = ' ' || c = '\t' || c = '\n' || c = '\r' || c = '\x0b' || c = '\x0c'

/-- ASCII decimal digit, as matched by `\d` and accepted by `str.isdigit`. -/
def isDigitChar (c : Char) : Bool :=
  '0' ≤ c && c ≤ '9'

/-- A character of the class `[\d.]`. -/
def isFloatChar (c : Char) : Bool :=
  isDigitChar c || c = '.'

/-- A character matched by `\w` (ASCII range). -/
def isWordChar (c : Char) : Bool :=
  isDigitChar c || ('a' ≤ c && c ≤ 'z') || ('A' ≤ c && c ≤ 'Z') || c = '_'

/-- `str.strip()` on a character list. -/
def stripChars (cs : List Char) : List Char :=
  ((cs.dropWhile isPySpace).reverse.dropWhile isPySpace).reverse

/-- `str.strip()`. -/
def stripStr (s : String) : String :=
  ⟨stripChars s.data⟩

/-- `str.lower()` (the headers only contain ASCII). -/
def lowerStr (s : String) : String :=
  ⟨s.data.map Char.toLower⟩

/-- `str.upper()` (the headers only contain ASCII). -/
def upperStr (s : String) : String :=
  ⟨s.data.map Char.toUpper⟩

/-- Does `needle` occur at the very start of `hay`? -/
def litAt : List Char → List Char → Bool
  | [], _ => true
  | _ :: _, [] => false
  | a :: as, b :: bs => a = b && litAt as bs

/-- Python's `needle in hay` substring test on character lists. -/
def containsSub (needle : List Char) : List Char → Bool
  | [] => needle.isEmpty
  | c :: cs => litAt needle (c :: cs) || containsSub needle cs

/-- Python's `needle in hay` substring test on strings. -/
def containsStr (needle hay : String) : Bool :=
  containsSub needle.data hay.data

/-- `any(p in s for p in pats)`. -/
def anyContains (pats : List String) (s : String) : Bool :=
  pats.any (fun p => containsStr p s)

/-- `str.split('\n')`. -/
def splitNl (cs : List Char) : List (List Char) :=
  cs.splitOn '\n'

/-- Helper for `splitWs`: accumulates the current word (reversed). -/
def splitWsAux : List Char → List Char → List (List Char)
  | [], acc => if acc.isEmpty then [] else [acc.reverse]
  | c :: cs, acc =>
    if isPySpace c then
      if acc.isEmpty then splitWsAux cs [] else acc.reverse :: splitWsAux cs []
    else
      splitWsAux cs (c :: acc)

/-- Python's `str.split()` with no separator: split on whitespace runs,
discarding empty words. -/
def splitWs (cs : List Char) : List (List Char) :=
  splitWsAux cs []

/-- Python's `str.isdigit()` for ASCII content: nonempty and all digits. -/
def isDigitWord (cs : List Char) : Bool :=
  !cs.isEmpty && cs.all isDigitChar

/-! ## Python numeric literals -/

/-- Digits to a natural number, most significant first. -/
def digitsToNat (cs : List Char) : ℕ :=
  cs.foldl (fun n c => 10 * n + (c.toNat - '0'.toNat)) 0

/-- Python's `float(s)` on an already-stripped string, for the decimal forms
`[+-]? digits [. digits] [(e|E) [+-]? digits]` (at least one digit in the
mantissa).  Returns `none` where `float` raises `ValueError`.  The special
spellings `inf` / `nan`, which never occur in PAR headers, are mapped to
`none` as well. -/
def parseFloat (cs0 : List Char) : Option ℚ :=
  let signRest : Bool × List Char :=
    match cs0 with
    | '-' :: r => (true, r)
    | '+' :: r => (false, r)
    | _ => (false, cs0)
  let neg := signRest.1
  let cs1 := signRest.2
  let ip := cs1.takeWhile isDigitChar
  let cs2 := cs1.dropWhile isDigitChar
  let fracRest : List Char × List Char :=
    match cs2 with
    | '.' :: r => (r.takeWhile isDigitChar, r.dropWhile isDigitChar)
    | _ => ([], cs2)
  let fp := fracRest.1
  let cs3 := fracRest.2
  if ip.isEmpty && fp.isEmpty then none else
  let expRest : Bool × Bool × List Char × List Char :=
    match cs3 with
    | 'e' :: r =>
      match r with
      | '-' :: r2 => (true, true, r2.takeWhile isDigitChar, r2.dropWhile isDigitChar)
      | '+' :: r2 => (true, false, r2.takeWhile isDigitChar, r2.dropWhile isDigitChar)
      | _ => (true, false, r.takeWhile isDigitChar, r.dropWhile isDigitChar)
    | 'E' :: r =>
      match r with
      | '-' :: r2 => (true, true, r2.takeWhile isDigitChar, r2.dropWhile isDigitChar)
      | '+' :: r2 => (true, false, r2.takeWhile isDigitChar, r2.dropWhile isDigitChar)
      | _ => (true, false, r.takeWhile isDigitChar, r.dropWhile isDigitChar)
    | _ => (false, false, [], cs3)
  let hasExp := expRest.1
  let eneg := expRest.2.1
  let ed := expRest.2.2.1
  let cs4 := expRest.2.2.2
  if hasExp && ed.isEmpty then none else
  if !cs4.isEmpty then none else
  let mant : ℚ := (digitsToNat ip : ℚ) + (digitsToNat fp : ℚ) / (10 : ℚ) ^ fp.length
  let ex : ℤ := if eneg then -(digitsToNat ed : ℤ) else (digitsToNat ed : ℤ)
  let v := mant * (10 : ℚ) ^ ex
  some (if neg then -v else v)

/-- Python's `int()` applied to a float: truncation toward zero. -/
def pyTrunc (q : ℚ) : ℤ :=
  if 0 ≤ q then ⌊q⌋ else ⌈q⌉

/-- Python's `round()` to an integer: round half to even (banker's
rounding). -/
def pyRound (q : ℚ) : ℤ :=
  let f := ⌊q⌋
  let r := q - (f : ℚ)
  if r < 1/2 then f else if 1/2 < r then f + 1 else if f % 2 = 0 then f else f + 1

/-- `round(x, k)`: round to `k` decimal digits. -/
def roundTo (k : ℕ) (q : ℚ) : ℚ :=
  (pyRound (q * (10 : ℚ) ^ k) : ℚ) / (10 : ℚ) ^ k

/-- `round(x, 6)`, used for all times in seconds. -/
def round6 (q : ℚ) : ℚ := roundTo 6 q

/-- `round(x, 8)`, used for the effective echo spacing. -/
def round8 (q : ℚ) : ℚ := roundTo 8 q

/-! ## `safe_float` / `safe_int` / `safe_str`

Embeddings of the conversion helpers shared by `batch_bids_par_updater.py`,
`nesda_W6_bids_par_update.py`, `nesda_json_updater.py` and
`nesda_single_subject_updater.py`. -/

/-- The placeholder spellings rejected by `safe_float`. -/
def floatPlaceholders : List String :=
  ["", "(float)", "N/A", "n/a", "?", "null"]

/-- `safe_float(value_str)`: strip, reject placeholders, remove parentheses,
then `float(...)`, returning `none` (the `default`) on failure. -/
def safe_float (s : String) : Option ℚ :=
  let st := stripStr s
  if floatPlaceholders.contains st then none
  else parseFloat (st.data.filter (fun c => c ≠ '(' && c ≠ ')'))

/-- `safe_int(value_str)`: `safe_float` then `int(...)` truncation. -/
def safe_int (s : String) : Option ℤ :=
  (safe_float s).map pyTrunc

/-- The placeholder spellings rejected by `safe_str`. -/
def strPlaceholders : List String :=
  ["(string)", "N/A", "n/a", "?", "null", ""]

/-- `safe_str(value_str)`: strip, and map placeholders to the empty-string
default. -/
def safe_str (s : String) : String :=
  let st := stripStr s
  if strPlaceholders.contains st then "" else st

/-! ## A scanner for the regular expressions used by the source

Every `re.search` call in the repository uses a pattern built from literal
text, `\s*`, `\s+`, a two-character class `[=:]`, an optional comma `,?`,
and one of the capture groups `(\d+)`, `(\d{3})`, `([\d.]+)`, `([^\n\r]+)`,
`(.+?)(?:\n|$)` or `(\w+)`.  `Tok` encodes exactly those constituents, `matchToks`
matches a token list at the start of the input, and `searchToks` scans for
the leftmost match, as `re.search` does.  For these patterns the greedy
matching implemented here agrees with Python's backtracking semantics:
every maximal-run token is followed by a token that cannot consume a
character of the same class. -/

inductive Tok where
  | lit (s : String)
  | cls (cs : List Char)
  | ws0
  | ws1
  | optc (c : Char)
  | capDigits
  | capDigitsN (n : ℕ)
  | digitsN (n : ℕ)
  | capFloat
  | capLine
  | capLazy
  | capWord
  deriving Repr

/-- Match a literal, case-sensitively or case-insensitively (`re.IGNORECASE`),
returning the rest of the input. -/
def dropLit (ci : Bool) : List Char → List Char → Option (List Char)
  | [], rest => some rest
  | _ :: _, [] => none
  | a :: as, b :: bs =>
    if (if ci then a.toLower = b.toLower else a = b) then dropLit ci as bs else none

/-- Match a token list at the start of the input; returns the list of
captured groups on success. -/
def matchToks (ci : Bool) : List Tok → List Char → Option (List (List Char))
  | [], _ => some []
  | .lit s :: ts, cs => (dropLit ci s.data cs).bind (matchToks ci ts)
  | .cls set :: ts, cs =>
    match cs with
    | c :: rest => if set.contains c then matchToks ci ts rest else none
    | [] => none
  | .ws0 :: ts, cs => matchToks ci ts (cs.dropWhile isPySpace)
  | .ws1 :: ts, cs =>
    if (cs.takeWhile isPySpace).isEmpty then none
    else matchToks ci ts (cs.dropWhile isPySpace)
  | .optc c :: ts, cs =>
    match cs with
    | c' :: rest => if c' = c then matchToks ci ts rest else matchToks ci ts cs
    | [] => matchToks ci ts []
  | .capDigits :: ts, cs =>
    let d := cs.takeWhile isDigitChar
    if d.isEmpty then none
    else (matchToks ci ts (cs.dropWhile isDigitChar)).map (d :: ·)
  | .capDigitsN n :: ts, cs =>
    let d := cs.take n
    if d.length = n && d.all isDigitChar then (matchToks ci ts (cs.drop n)).map (d :: ·)
    else none
  | .digitsN n :: ts, cs =>
    let d := cs.take n
    if d.length = n && d.all isDigitChar then matchToks ci ts (cs.drop n)
    else none
  | .capFloat :: ts, cs =>
    let d := cs.takeWhile isFloatChar
    if d.isEmpty then none
    else (matchToks ci ts (cs.dropWhile isFloatChar)).map (d :: ·)
  | .capLine :: ts, cs =>
    let d := cs.takeWhile (fun c => !(c = '\n') && !(c = '\r'))
    if d.isEmpty then none
    else (matchToks ci ts (cs.dropWhile (fun c => !(c = '\n') && !(c = '\r')))).map (d :: ·)
  | .capLazy :: ts, cs =>
    let d := cs.takeWhile (fun c => !(c = '\n'))
    if d.isEmpty then none
    else (matchToks ci ts (cs.dropWhile (fun c => !(c = '\n')))).map (d :: ·)
  | .capWord :: ts, cs =>
    let d := cs.takeWhile isWordChar
    if d.isEmpty then none
    else (matchToks ci ts (cs.dropWhile isWordChar)).map (d :: ·)

/-- `re.search`: try the pattern at every position, leftmost match wins. -/
def searchToks (ci : Bool) (toks : List Tok) : List Char → Option (List (List Char))
  | [] => matchToks ci toks []
  | c :: cs =>
    match matchToks ci toks (c :: cs) with
    | some r => some r
    | none => searchToks ci toks cs

/-- Search a string with a pattern. -/
def searchStr (ci : Bool) (toks : List Tok) (s : String) : Option (List (List Char)) :=
  searchToks ci toks s.data

/-- `match.group(1)` as a string. -/
def group1 (r : Option (List (List Char))) : Option String :=
  (r.bind (·.head?)).map (⟨·⟩)

/-- `match.group(2)` as a string. -/
def group2 (r : Option (List (List Char))) : Option String :=
  (r.bind (·.get? 1)).map (⟨·⟩)

/-! ## Slice-timing reconstruction

Embedding of the `SLICE TIMING` block shared verbatim by
`extract_philips_bids_3sites` (`batch_bids_par_updater.py` lines 204-231),
`extract_philips_bids_w6` (`nesda_W6_bids_par_update.py` lines 192-217),
`extract_complete_philips_params` (`nesda_json_updater.py` lines 308-329 and
`nesda_single_subject_updater.py` lines 208-228). -/

/-- Python's `range(start, stop, step)` for a positive step. -/
def pyRange (start stop step : ℕ) : List ℕ :=
  (List.range ((stop - start + step - 1) / step)).map (fun i => start + step * i)

/-- The Philips "interleaved ascending from bottom" acquisition order:
`range(1, n+1, 2)` (odd 1-based slice numbers) then `range(2, n+1, 2)`
(even 1-based slice numbers), each converted to 0-based indices. -/
def acquisitionOrder (n : ℕ) : List ℕ :=
  (pyRange 1 (n + 1) 2).map (fun slice_num => slice_num - 1)
    ++ (pyRange 2 (n + 1) 2).map (fun slice_num => slice_num - 1)

/-- The assignment loop
`for acq_time_index, slice_index in enumerate(acquisition_order):
   slice_timing[slice_index] = round(acq_time_index * time_per_slice, 6)`,
with `k` the running `acq_time_index`. -/
def assignTimings (tps : ℚ) : ℕ → List ℕ → List ℚ → List ℚ
  | _, [], st => st
  | k, s :: rest, st => assignTimings tps (k + 1) rest (st.set s (round6 ((k : ℚ) * tps)))

/-- `SliceTiming` computed from the repetition time in seconds and the slice
count: `slice_timing = [0.0] * n`, then the assignment loop over
`acquisitionOrder`. -/
def sliceTiming (tr : ℚ) (n : ℕ) : List ℚ :=
  assignTimings (tr / (n : ℚ)) 0 (acquisitionOrder n) (List.replicate n 0)

/-- The position of 0-based slice `s` in the acquisition order (the spec's
`rank(s)`). -/
def rankAux (s : ℕ) : List ℕ → ℕ
  | [] => 0
  | a :: t => if a = s then 0 else rankAux s t + 1

/-- `rank n s`: the acquisition position of physical slice `s` among `n`
slices. -/
def rank (n s : ℕ) : ℕ :=
  rankAux s (acquisitionOrder n)

/-! ## Supporting lemmas about list update and the acquisition order -/

theorem get?_set_self {α : Type} (l : List α) (i : ℕ) (v : α) (h : i < l.length) :
    (l.set i v).get? i = some v := by
  induction l generalizing i with
  | nil => simp at h
  | cons a t ih =>
    cases i with
    | zero => rfl
    | succ j => simpa using ih j (by simpa using h)

theorem get?_set_ne {α : Type} (l : List α) (i j : ℕ) (v : α) (h : i ≠ j) :
    (l.set i v).get? j = l.get? j := by
  induction l generalizing i j with
  | nil => rfl
  | cons a t ih =>
    cases i with
    | zero => cases j with
      | zero => exact absurd rfl h
      | succ m => rfl
    | succ i' => cases j with
      | zero => rfl
      | succ m => simpa using ih i' m (by omega)

theorem acquisitionOrder_eq (n : ℕ) :
    acquisitionOrder n =
      (List.range ((n + 1) / 2)).map (fun i => 2 * i)
        ++ (List.range (n / 2)).map (fun i => 2 * i + 1) := by
  unfold acquisitionOrder pyRange
  have e1 : (n + 1 - 1 + 2 - 1) / 2 = (n + 1) / 2 := by omega
  have e2 : (n + 1 - 2 + 2 - 1) / 2 = n / 2 := by omega
  rw [e1, e2, List.map_map, List.map_map]
  congr 1
  · apply List.map_congr_left
    intro i _
    simp only [Function.comp]
    omega
  · apply List.map_congr_left
    intro i _
    simp only [Function.comp]
    omega

theorem mem_acquisitionOrder {n s : ℕ} (hs : s < n) : s ∈ acquisitionOrder n := by
  rw [acquisitionOrder_eq]
  rcases Nat.even_or_odd s with ⟨i, hi⟩ | ⟨i, hi⟩
  · refine List.mem_append.mpr (Or.inl ?_)
    exact List.mem_map.mpr ⟨i, List.mem_range.mpr (by omega), by omega⟩
  · refine List.mem_append.mpr (Or.inr ?_)
    exact List.mem_map.mpr ⟨i, List.mem_range.mpr (by omega), by omega⟩

theorem acquisitionOrder_lt {n x : ℕ} (hx : x ∈ acquisitionOrder n) : x < n := by
  rw [acquisitionOrder_eq] at hx
  rcases List.mem_append.mp hx with hm | hm <;>
    obtain ⟨i, hi, rfl⟩ := List.mem_map.mp hm <;>
    rw [List.mem_range] at hi <;> omega

theorem acquisitionOrder_nodup (n : ℕ) : (acquisitionOrder n).Nodup := by
  rw [acquisitionOrder_eq]
  refine List.Nodup.append ?_ ?_ ?_
  · exact (List.nodup_range _).map (fun a b h => by omega)
  · exact (List.nodup_range _).map (fun a b h => by omega)
  · rw [List.disjoint_left]
    intro a ha hb
    obtain ⟨i, _, hi⟩ := List.mem_map.mp ha
    obtain ⟨j, _, hj⟩ := List.mem_map.mp hb
    omega

theorem assignTimings_get? (tps : ℚ) (l : List ℕ) (k : ℕ) (st : List ℚ) (s : ℕ)
    (hnd : l.Nodup) (hlt : ∀ x ∈ l, x < st.length) :
    (assignTimings tps k l st).get? s =
      if s ∈ l then some (round6 (((k + rankAux s l : ℕ) : ℚ) * tps)) else st.get? s := by
  induction l generalizing k st with
  | nil => simp [assignTimings, rankAux]
  | cons a t ih =>
    obtain ⟨hat, hndt⟩ := List.nodup_cons.mp hnd
    rw [assignTimings, ih (k + 1) _ hndt
      (fun x hx => by rw [List.length_set]; exact hlt x (List.mem_cons_of_mem a hx))]
    by_cases hst : s ∈ t
    · have hsa : a ≠ s := fun h => hat (h ▸ hst)
      have hmem : s ∈ a :: t := List.mem_cons_of_mem a hst
      have hrk : rankAux s (a :: t) = rankAux s t + 1 := by simp [rankAux, hsa]
      have harith : k + 1 + rankAux s t = k + rankAux s (a :: t) := by rw [hrk]; omega
      simp only [hst, if_true, hmem, harith]
    · by_cases hsa : s = a
      · subst hsa
        have hrk : rankAux s (s :: t) = 0 := by simp [rankAux]
        have hmem : s ∈ s :: t := List.mem_cons_self s t
        simp only [hst, if_false, hmem, if_true, hrk, Nat.add_zero]
        exact get?_set_self st s _ (hlt s hmem)
      · have hmem : s ∉ a :: t := by
          intro h
          rcases List.mem_cons.mp h with h' | h'
          · exact hsa h'
          · exact hst h'
        simp only [hst, if_false, hmem]
        exact get?_set_ne st a s _ (fun h => hsa h.symm)

/-! ## Claim theorems C1 and C2 -/

/-- C1.  Slice-timing reconstruction: for every `TR > 0` and slice count
`n > 0`, the acquisition order is all odd 1-based slice positions ascending
(0-based: `0, 2, 4, …`) followed by all even 1-based slice positions
ascending (0-based: `1, 3, 5, …`); `SliceTiming[s] = rank(s) * (TR / n)`
rounded to 6 decimals, where `rank s` is the position of slice `s` in the
acquisition order; and for `n = 4` the result is
`[0, TR/2, TR/4, 3*TR/4]` (each rounded to 6 decimals). -/
theorem slice_timing_reconstruction (tr : ℚ) (htr : 0 < tr) (n : ℕ) (hn : 0 < n)
    (s : ℕ) (hs : s < n) :
    acquisitionOrder n =
        (List.range ((n + 1) / 2)).map (fun i => 2 * i)
          ++ (List.range (n / 2)).map (fun i => 2 * i + 1)
      ∧ (sliceTiming tr n).get? s = some (round6 ((rank n s : ℚ) * (tr / n)))
      ∧ sliceTiming tr 4 = [0, round6 (tr / 2), round6 (tr / 4), round6 (3 * tr / 4)] := by
  refine ⟨acquisitionOrder_eq n, ?_, ?_⟩
  · rw [sliceTiming, assignTimings_get? (tr / (n : ℚ)) (acquisitionOrder n) 0
      (List.replicate n 0) s (acquisitionOrder_nodup n)
      (fun x hx => by rw [List.length_replicate]; exact acquisitionOrder_lt hx)]
    simp only [mem_acquisitionOrder hs, if_true, Nat.zero_add]
    rfl
  · have hr0 : round6 (0 : ℚ) = 0 := by norm_num [round6, roundTo, pyRound]
    have h2 : round6 ((2 : ℚ) * (tr / 4)) = round6 (tr / 2) :=
      congrArg round6 (by ring)
    have h3 : round6 ((3 : ℚ) * (tr / 4)) = round6 (3 * tr / 4) :=
      congrArg round6 (by ring)
    simp only [sliceTiming, acquisitionOrder, pyRange, assignTimings, List.range_succ]
    norm_num [List.replicate, List.set, assignTimings]
    exact ⟨hr0, h2, h3⟩

/-- Witness for C1 at `TR = 3`, `n = 6`, `s = 2`. -/
theorem slice_timing_reconstruction_witness :
    (sliceTiming 3 6).get? 2 = some (round6 ((rank 6 2 : ℚ) * (3 / 6))) :=
  (slice_timing_reconstruction 3 (by norm_num) 6 (by norm_num) 2 (by norm_num)).2.1

/-- C2 counterexample.  For `n = 6`, `TR = 3.0` the claim asserts the
acquisition order `[0,2,4,1,3,5]` together with
`SliceTiming = [0.0, 1.0, 2.0, 0.5, 1.5, 2.5]`; the code produces
`SliceTiming = [0.0, 1.5, 0.5, 2.0, 1.0, 2.5]`, so the conjunction is
false. -/
theorem slice_timing_example_false :
    ¬ (acquisitionOrder 6 = [0, 2, 4, 1, 3, 5]
        ∧ sliceTiming 3 6 = [0, 1, 2, 1/2, 3/2, 5/2]) := by
  intro h
  have hne : sliceTiming 3 6 ≠ [0, 1, 2, 1/2, 3/2, 5/2] := by
    norm_num [sliceTiming, acquisitionOrder, pyRange, assignTimings, round6, roundTo,
      pyRound, List.range_succ, List.replicate, List.set]
  exact hne h.2

/-- C2 amended.  For `n = 6`, `TR = 3.0` the acquisition order (0-based) is
`[0,2,4,1,3,5]` and the resulting `SliceTiming` sequence equals
`[0.0, 1.5, 0.5, 2.0, 1.0, 2.5]` (slice `s` is acquired at position
`rank s`, the index of `s` in the acquisition order, so slice 1 is acquired
fourth, at `1.5 s`). -/
theorem slice_timing_example_amended :
    acquisitionOrder 6 = [0, 2, 4, 1, 3, 5]
      ∧ sliceTiming 3 6 = [0, 3/2, 1/2, 2, 1, 5/2] := by
  constructor
  · decide
  · norm_num [sliceTiming, acquisitionOrder, pyRange, assignTimings, round6, roundTo,
      pyRound, List.range_succ, List.replicate, List.set]

/-! ## Effective echo spacing

Embedding of the `EffectiveEchoSpacing` computation of
`extract_philips_bids_3sites` (`batch_bids_par_updater.py` lines 389-408)
and of `extract_complete_philips_params` (`nesda_json_updater.py` lines
429-440, `nesda_single_subject_updater.py` lines 286-296).  The inputs are
the extracted water-fat shift and phase-encode reconstruction dimension;
`none` models the Python `None` left by a failed extraction, and the
computation is guarded by the Python truthiness test
`if water_fat_shift and recon_matrix_pe:`.  The site-specific
`bandwidth_factor` reassignments in the batch variant all store the same
constant `434.215`, so a single constant appears here. -/

/-- Batch (3-site) variant: on missing or falsy input the field is simply
omitted (`none`). -/
def effectiveEchoSpacing3sites (water_fat_shift : Option ℚ)
    (recon_matrix_pe : Option ℕ) : Option ℚ :=
  match water_fat_shift, recon_matrix_pe with
  | some w, some r =>
    if w = 0 ∨ r = 0 then none
    else some (round8 (1 / (((434.215 : ℚ) / w) * (r : ℚ))))
  | _, _ => none

/-- Targeted variant (`nesda_json_updater.py`, `nesda_single_subject_updater.py`):
on missing or falsy input the documented fallback constant `0.0005` is
stored. -/
def effectiveEchoSpacingTargeted (water_fat_shift : Option ℚ)
    (recon_matrix_pe : Option ℕ) : ℚ :=
  match water_fat_shift, recon_matrix_pe with
  | some w, some r =>
    if w = 0 ∨ r = 0 then (0.0005 : ℚ)
    else round8 (1 / (((434.215 : ℚ) / w) * (r : ℚ)))
  | _, _ => (0.0005 : ℚ)

/-- C3.  Effective echo spacing: with both inputs extracted and positive,
both engine variants store `round(1 / ((434.215 / wfs) * reconY), 8)`; in
particular `wfs = 10`, `reconY = 80` gives
`round(1 / ((434.215 / 10) * 80), 8)`.  With either input missing the batch
variant omits the field and the targeted variant stores the documented
fallback `0.0005`; neither computes from partial data. -/
theorem effective_echo_spacing_formula (wfs : ℚ) (hw : 0 < wfs) (reconY : ℕ)
    (hr : 0 < reconY) :
    effectiveEchoSpacing3sites (some wfs) (some reconY)
        = some (round8 (1 / (((434.215 : ℚ) / wfs) * (reconY : ℚ))))
      ∧ effectiveEchoSpacingTargeted (some wfs) (some reconY)
        = round8 (1 / (((434.215 : ℚ) / wfs) * (reconY : ℚ)))
      ∧ effectiveEchoSpacing3sites (some 10) (some 80)
        = some (round8 (1 / (((434.215 : ℚ) / 10) * 80)))
      ∧ (∀ r, effectiveEchoSpacing3sites none r = none)
      ∧ (∀ w, effectiveEchoSpacing3sites w none = none)
      ∧ (∀ r, effectiveEchoSpacingTargeted none r = (0.0005 : ℚ))
      ∧ (∀ w, effectiveEchoSpacingTargeted w none = (0.0005 : ℚ)) := by
  refine ⟨?_, ?_, ?_, ?_, ?_, ?_, ?_⟩
  · simp only [effectiveEchoSpacing3sites]
    rw [if_neg (by push_neg; exact ⟨ne_of_gt hw, Nat.pos_iff_ne_zero.mp hr⟩)]
  · simp only [effectiveEchoSpacingTargeted]
    rw [if_neg (by push_neg; exact ⟨ne_of_gt hw, Nat.pos_iff_ne_zero.mp hr⟩)]
  · simp only [effectiveEchoSpacing3sites]
    norm_num
  · intro r; cases r <;> rfl
  · intro w; cases w <;> rfl
  · intro r; cases r <;> rfl
  · intro w; cases w <;> rfl

/-- Witness for C3 at `wfs = 10`, `reconY = 80`. -/
theorem effective_echo_spacing_formula_witness :
    effectiveEchoSpacing3sites (some 10) (some 80)
      = some (round8 (1 / (((434.215 : ℚ) / 10) * (80 : ℕ)))) :=
  (effective_echo_spacing_formula 10 (by norm_num) 80 (by norm_num)).1

/-! ## Phase-encoding-direction inference

Embedding of the `Preparation direction` mapping shared by
`extract_philips_bids_3sites` (`batch_bids_par_updater.py` lines 327-347),
`extract_philips_bids_w6` (lines 284-302), `extract_complete_philips_params`
(`nesda_json_updater.py` lines 375-394 and
`nesda_single_subject_updater.py` lines 249-264): the captured free text is
stripped, lowercased, and mapped by substring / equality tests in a fixed
priority order. -/

/-- The shared mapping of the captured preparation-direction text to a BIDS
axis code. -/
def mapPreparationDirection (direction : String) : Option String :=
  let direction_lower := lowerStr (stripStr direction)
  if containsStr "anterior-posterior" direction_lower || direction_lower == "ap" then
    some "j-"
  else if containsStr "posterior-anterior" direction_lower || direction_lower == "pa" then
    some "j"
  else if containsStr "left-right" direction_lower || direction_lower == "lr" then
    some "i-"
  else if containsStr "right-left" direction_lower || direction_lower == "rl" then
    some "i"
  else none

/-- The targeted variants apply the documented default `"j-"` when no
pattern matched (`none`) or the matched text is unrecognised. -/
def phaseEncodingDirectionDefaulted (direction : Option String) : String :=
  (direction.bind mapPreparationDirection).getD "j-"

/-- The legacy variant's mapping (`bids_par_json_updater.py` lines 113-123):
the captured word is lowercased (no strip) and tested against the short
substrings `'ap'`/`'anterior'`, `'pa'`/`'posterior'`, `'lr'`/`'left'`,
`'rl'`/`'right'`, in that order. -/
def mapPhaseWordLegacy (direction0 : String) : Option String :=
  let direction := lowerStr direction0
  if containsStr "ap" direction || containsStr "anterior" direction then
    some "j-"
  else if containsStr "pa" direction || containsStr "posterior" direction then
    some "j"
  else if containsStr "lr" direction || containsStr "left" direction then
    some "i-"
  else if containsStr "rl" direction || containsStr "right" direction then
    some "i"
  else none

/-- The legacy variant's default (`if not phase_dir: phase_dir = 'j-'`). -/
def phaseDirLegacyDefaulted (direction : Option String) : String :=
  (direction.bind mapPhaseWordLegacy).getD "j-"

/-- `r'phase encoding direction\s*:\s*(\w+)'` of the legacy variant. -/
def patPhaseEncLegacy : List Tok :=
  [.lit "phase encoding direction", .ws0, .lit ":", .ws0, .capWord]

/-- The `PhaseEncodingDirection` value stored by `extract_bids_from_par`
(`bids_par_json_updater.py` lines 108-130). -/
def extract_bids_phase_dir (cs : List Char) : String :=
  phaseDirLegacyDefaulted (group1 (searchToks true patPhaseEncLegacy cs))

/-- C8 counterexample.  The captured word `"palm"` matches none of the four
phrase tests (it contains no hyphenated phrase and is not an `ap`/`pa`/`lr`/
`rl` abbreviation), so under the claim the field must be left absent or take
the documented default `"j-"`; yet the legacy engine
(`bids_par_json_updater.py`) maps it to `"j"` because `'pa'` occurs in
`"palm"` — including from a full header line. -/
theorem phase_encoding_legacy_false :
    mapPreparationDirection "palm" = none
      ∧ phaseEncodingDirectionDefaulted (some "palm") = "j-"
      ∧ mapPhaseWordLegacy "palm" = some "j"
      ∧ extract_bids_phase_dir ("phase encoding direction : palm").data = "j"
      ∧ ("j" : String) ≠ "j-" := by
  refine ⟨by decide, by decide, by decide, by decide, by decide⟩

/-- C8 (amended).  The batch, W6 and targeted engines map the lowercased
free text by substring test, most specific phrase first:
anterior-to-posterior (or exactly `"ap"`) yields `"j-"`,
posterior-to-anterior (`"pa"`) yields `"j"`, left-to-right (`"lr"`) yields
`"i-"`, right-to-left (`"rl"`) yields `"i"`; text matching none of these
leaves the field absent, with the targeted engine variants instead applying
the explicit documented default `"j-"`.  The legacy engine
(`bids_par_json_updater.py`) captures a single word and maps it by the
short substring tests `'ap'`/`'anterior'` to `"j-"`, else
`'pa'`/`'posterior'` to `"j"`, else `'lr'`/`'left'` to `"i-"`, else
`'rl'`/`'right'` to `"i"`, applying its default `"j-"` only when none of
those substrings occurs. -/
theorem phase_encoding_direction_mapping (d : String) :
    ((containsStr "anterior-posterior" (lowerStr (stripStr d))
        || lowerStr (stripStr d) == "ap") = true →
      mapPreparationDirection d = some "j-")
  ∧ ((containsStr "anterior-posterior" (lowerStr (stripStr d))
        || lowerStr (stripStr d) == "ap") = false →
     (containsStr "posterior-anterior" (lowerStr (stripStr d))
        || lowerStr (stripStr d) == "pa") = true →
      mapPreparationDirection d = some "j")
  ∧ ((containsStr "anterior-posterior" (lowerStr (stripStr d))
        || lowerStr (stripStr d) == "ap") = false →
     (containsStr "posterior-anterior" (lowerStr (stripStr d))
        || lowerStr (stripStr d) == "pa") = false →
     (containsStr "left-right" (lowerStr (stripStr d))
        || lowerStr (stripStr d) == "lr") = true →
      mapPreparationDirection d = some "i-")
  ∧ ((containsStr "anterior-posterior" (lowerStr (stripStr d))
        || lowerStr (stripStr d) == "ap") = false →
     (containsStr "posterior-anterior" (lowerStr (stripStr d))
        || lowerStr (stripStr d) == "pa") = false →
     (containsStr "left-right" (lowerStr (stripStr d))
        || lowerStr (stripStr d) == "lr") = false →
     (containsStr "right-left" (lowerStr (stripStr d))
        || lowerStr (stripStr d) == "rl") = true →
      mapPreparationDirection d = some "i")
  ∧ ((containsStr "anterior-posterior" (lowerStr (stripStr d))
        || lowerStr (stripStr d) == "ap") = false →
     (containsStr "posterior-anterior" (lowerStr (stripStr d))
        || lowerStr (stripStr d) == "pa") = false →
     (containsStr "left-right" (lowerStr (stripStr d))
        || lowerStr (stripStr d) == "lr") = false →
     (containsStr "right-left" (lowerStr (stripStr d))
        || lowerStr (stripStr d) == "rl") = false →
      mapPreparationDirection d = none
        ∧ phaseEncodingDirectionDefaulted (some d) = "j-")
  ∧ ((containsStr "ap" (lowerStr d) || containsStr "anterior" (lowerStr d)) = true →
      mapPhaseWordLegacy d = some "j-")
  ∧ ((containsStr "ap" (lowerStr d) || containsStr "anterior" (lowerStr d)) = false →
     (containsStr "pa" (lowerStr d) || containsStr "posterior" (lowerStr d)) = true →
      mapPhaseWordLegacy d = some "j")
  ∧ ((containsStr "ap" (lowerStr d) || containsStr "anterior" (lowerStr d)) = false →
     (containsStr "pa" (lowerStr d) || containsStr "posterior" (lowerStr d)) = false →
     (containsStr "lr" (lowerStr d) || containsStr "left" (lowerStr d)) = true →
      mapPhaseWordLegacy d = some "i-")
  ∧ ((containsStr "ap" (lowerStr d) || containsStr "anterior" (lowerStr d)) = false →
     (containsStr "pa" (lowerStr d) || containsStr "posterior" (lowerStr d)) = false →
     (containsStr "lr" (lowerStr d) || containsStr "left" (lowerStr d)) = false →
     (containsStr "rl" (lowerStr d) || containsStr "right" (lowerStr d)) = true →
      mapPhaseWordLegacy d = some "i")
  ∧ ((containsStr "ap" (lowerStr d) || containsStr "anterior" (lowerStr d)) = false →
     (containsStr "pa" (lowerStr d) || containsStr "posterior" (lowerStr d)) = false →
     (containsStr "lr" (lowerStr d) || containsStr "left" (lowerStr d)) = false →
     (containsStr "rl" (lowerStr d) || containsStr "right" (lowerStr d)) = false →
      mapPhaseWordLegacy d = none
        ∧ phaseDirLegacyDefaulted (some d) = "j-") := by
  refine ⟨?_, ?_, ?_, ?_, ?_, ?_, ?_, ?_, ?_, ?_⟩
  · intro h1
    simp only [mapPreparationDirection, h1, if_true]
  · intro h1 h2
    simp only [mapPreparationDirection, h1, h2, Bool.false_eq_true, if_false, if_true]
  · intro h1 h2 h3
    simp only [mapPreparationDirection, h1, h2, h3, Bool.false_eq_true, if_false, if_true]
  · intro h1 h2 h3 h4
    simp only [mapPreparationDirection, h1, h2, h3, h4, Bool.false_eq_true, if_false,
      if_true]
  · intro h1 h2 h3 h4
    have hmap : mapPreparationDirection d = none := by
      simp only [mapPreparationDirection, h1, h2, h3, h4, Bool.false_eq_true, if_false]
    exact ⟨hmap, by simp [phaseEncodingDirectionDefaulted, hmap]⟩
  · intro h1
    simp only [mapPhaseWordLegacy, h1, if_true]
  · intro h1 h2
    simp only [mapPhaseWordLegacy, h1, h2, Bool.false_eq_true, if_false, if_true]
  · intro h1 h2 h3
    simp only [mapPhaseWordLegacy, h1, h2, h3, Bool.false_eq_true, if_false, if_true]
  · intro h1 h2 h3 h4
    simp only [mapPhaseWordLegacy, h1, h2, h3, h4, Bool.false_eq_true, if_false, if_true]
  · intro h1 h2 h3 h4
    have hmap : mapPhaseWordLegacy d = none := by
      simp only [mapPhaseWordLegacy, h1, h2, h3, h4, Bool.false_eq_true, if_false]
    exact ⟨hmap, by simp [phaseDirLegacyDefaulted, hmap]⟩

/-- Witness for C8 (amended) on the texts `"Anterior-Posterior "` and
`"feet first"`, and on the legacy-engine words `"palm"` and `"rest"`. -/
theorem phase_encoding_direction_mapping_witness :
    mapPreparationDirection "Anterior-Posterior " = some "j-"
      ∧ mapPreparationDirection "feet first" = none
      ∧ phaseEncodingDirectionDefaulted (some "feet first") = "j-"
      ∧ mapPhaseWordLegacy "palm" = some "j"
      ∧ mapPhaseWordLegacy "rest" = none
      ∧ phaseDirLegacyDefaulted (some "rest") = "j-" :=
  ⟨(phase_encoding_direction_mapping "Anterior-Posterior ").1 (by decide),
   ((phase_encoding_direction_mapping "feet first").2.2.2.2.1
      (by decide) (by decide) (by decide) (by decide)).1,
   ((phase_encoding_direction_mapping "feet first").2.2.2.2.1
      (by decide) (by decide) (by decide) (by decide)).2,
   (phase_encoding_direction_mapping "palm").2.2.2.2.2.2.1 (by decide) (by decide),
   ((phase_encoding_direction_mapping "rest").2.2.2.2.2.2.2.2.2
      (by decide) (by decide) (by decide) (by decide)).1,
   ((phase_encoding_direction_mapping "rest").2.2.2.2.2.2.2.2.2
      (by decide) (by decide) (by decide) (by decide)).2⟩


/-! ## Site detection

Embedding of `detect_nesda_site` (`batch_bids_par_updater.py` lines 35-127)
and `detect_nesda_site_w6` (`nesda_W6_bids_par_update.py` lines 36-116).
The `site_info` dict becomes a structure; the successive mutations become a
chain of record updates in source order. -/

/-- The `site_info` dict of `detect_nesda_site`. -/
structure SiteInfo where
  version : String
  tool_version : String
  site_group : String
  actual_site : String
  characteristics : List String
  confidence : String
  deriving Repr, DecidableEq

/-- Initial `site_info` of `detect_nesda_site`. -/
def siteInfoInit : SiteInfo :=
  ⟨"unknown", "unknown", "unknown", "unknown", [], "low"⟩

/-- The `site_info` dict of `detect_nesda_site_w6`, which carries the extra
`'wave': 'W6'` entry. -/
structure SiteInfoW6 where
  version : String
  tool_version : String
  site_group : String
  actual_site : String
  characteristics : List String
  confidence : String
  wave : String
  deriving Repr, DecidableEq

/-- Initial `site_info` of `detect_nesda_site_w6`. -/
def siteInfoW6Init : SiteInfoW6 :=
  ⟨"unknown", "unknown", "unknown", "unknown", [], "low", "W6"⟩

/-- `r'Research image export tool\s+V([\d.]+)'` (case-sensitive). -/
def patResearchTool : List Tok :=
  [.lit "Research image export tool", .ws1, .lit "V", .capFloat]

/-- The extracted export-tool version, `version_match.group(1)`. -/
def toolVersionMatch (content : String) : Option String :=
  group1 (searchStr false patResearchTool content)

/-- `r'Patient name\s*:\s*(.+?)(?:\n|$)'` with `re.IGNORECASE`. -/
def patPatientName : List Tok :=
  [.lit "Patient name", .ws0, .lit ":", .ws0, .capLazy]

/-- `r'Examination name\s*:\s*(.+?)(?:\n|$)'` with `re.IGNORECASE`. -/
def patExaminationName : List Tok :=
  [.lit "Examination name", .ws0, .lit ":", .ws0, .capLazy]

/-- `r'110\d{3}'`. -/
def patSubjectId : List Tok := [.lit "110", .digitsN 3]

/-- `r'110(\d{3})'`. -/
def patSubjectIdCap : List Tok := [.lit "110", .capDigitsN 3]

/-- The V4.2 Amsterdam/Leiden disambiguation of `detect_nesda_site`
(methods 1-3 and the `AmsLei_unspecified` fallback). -/
def detectAmsLei (content file_path : String) (si : SiteInfo) : SiteInfo :=
  let si1 :=
    match group1 (searchStr true patPatientName content) with
    | some pname =>
      let patient_name := upperStr (stripStr pname)
      if anyContains ["VU", "VUMC", "AMSTERDAM"] patient_name then
        { si with actual_site := "Amsterdam", confidence := "high" }
      else if anyContains ["LUMC", "LEIDEN", "HULSBOSCH"] patient_name then
        { si with actual_site := "Leiden", confidence := "high" }
      else si
    | none => si
  let si2 :=
    if si1.actual_site = "unknown" ∧ file_path ≠ "" then
      let path_upper := upperStr file_path
      if anyContains ["AMSTERDAM", "VUMC", "AMS"] path_upper then
        { si1 with actual_site := "Amsterdam", confidence := "medium" }
      else if anyContains ["LEIDEN", "LUMC", "LEI"] path_upper then
        { si1 with actual_site := "Leiden", confidence := "medium" }
      else si1
    else si1
  let si3 :=
    match group1 (searchStr true patExaminationName content) with
    | some ex =>
      if si2.actual_site = "unknown" then
        let exam_name := stripStr ex
        if (searchStr false patSubjectId exam_name).isSome then
          match group1 (searchStr false patSubjectIdCap exam_name) with
          | some ds =>
            let subject_num := digitsToNat ds.data
            if subject_num < 500 then
              { si2 with actual_site := "Leiden", confidence := "medium" }
            else
              { si2 with actual_site := "Amsterdam", confidence := "medium" }
          | none => si2
        else si2
      else si2
    | none => si2
  if si3.actual_site = "unknown" then
    { si3 with actual_site := "AmsLei_unspecified", confidence := "low" }
  else si3

/-- The trailing `characteristics` detection of `detect_nesda_site`
(substring presence of `'Number of label types'`, `'SPIR'`, `'SENSE'`). -/
def addCharacteristics (content : String) (si : SiteInfo) : SiteInfo :=
  let si1 :=
    if containsStr "Number of label types" content then
      { si with characteristics := si.characteristics ++ ["ASL_capable"] }
    else si
  let si2 :=
    if containsStr "SPIR" content then
      { si1 with characteristics := si1.characteristics ++ ["SPIR_suppression"] }
    else si1
  if containsStr "SENSE" content then
    { si2 with characteristics := si2.characteristics ++ ["SENSE_acceleration"] }
  else si2

/-- `detect_nesda_site(content, file_path)`. -/
def detect_nesda_site (content file_path : String) : SiteInfo :=
  let site_info := siteInfoInit
  let site_info :=
    match toolVersionMatch content with
    | some tool_version =>
      let si := { site_info with tool_version := tool_version,
                                 version := "V" ++ tool_version }
      if tool_version = "4.1" then
        { si with site_group := "Groningen", actual_site := "Groningen",
                  characteristics := si.characteristics ++ ["V4.1_format"],
                  confidence := "high" }
      else if tool_version = "4.2" then
        detectAmsLei content file_path
          { si with site_group := "AmsLei",
                    characteristics := si.characteristics
                      ++ ["V4.2_format", "ASL_capable"] }
      else si
    | none => site_info
  addCharacteristics content site_info

/-- The V4.2 Amsterdam/Leiden disambiguation of `detect_nesda_site_w6`
(patient-name method with the wider `'AMS'`/`'LEI'` pattern lists, the
file-path method that also recognises Groningen, and the fallback; the W6
variant has no examination-name method). -/
def detectAmsLeiW6 (content file_path : String) (si : SiteInfoW6) : SiteInfoW6 :=
  let si1 :=
    match group1 (searchStr true patPatientName content) with
    | some pname =>
      let patient_name := upperStr (stripStr pname)
      if anyContains ["VU", "VUMC", "AMSTERDAM", "AMS"] patient_name then
        { si with actual_site := "Amsterdam", confidence := "high" }
      else if anyContains ["LUMC", "LEIDEN", "LEI"] patient_name then
        { si with actual_site := "Leiden", confidence := "high" }
      else si
    | none => si
  let si2 :=
    if si1.actual_site = "unknown" ∧ file_path ≠ "" then
      let path_upper := upperStr file_path
      if anyContains ["GRONINGEN", "GRO"] path_upper then
        { si1 with actual_site := "Groningen", confidence := "medium" }
      else if anyContains ["AMSTERDAM", "VUMC", "AMS"] path_upper then
        { si1 with actual_site := "Amsterdam", confidence := "medium" }
      else if anyContains ["LEIDEN", "LUMC", "LEI"] path_upper then
        { si1 with actual_site := "Leiden", confidence := "medium" }
      else si1
    else si1
  if si2.actual_site = "unknown" then
    { si2 with actual_site := "AmsLei_unspecified", confidence := "low" }
  else si2

/-- The trailing `characteristics` detection of `detect_nesda_site_w6`. -/
def addCharacteristicsW6 (content : String) (si : SiteInfoW6) : SiteInfoW6 :=
  let si1 :=
    if containsStr "Number of label types" content then
      { si with characteristics := si.characteristics ++ ["ASL_capable"] }
    else si
  let si2 :=
    if containsStr "SPIR" content then
      { si1 with characteristics := si1.characteristics ++ ["SPIR_suppression"] }
    else si1
  if containsStr "SENSE" content then
    { si2 with characteristics := si2.characteristics ++ ["SENSE_acceleration"] }
  else si2

/-- `detect_nesda_site_w6(content, file_path)`. -/
def detect_nesda_site_w6 (content file_path : String) : SiteInfoW6 :=
  let site_info := siteInfoW6Init
  let site_info :=
    match toolVersionMatch content with
    | some tool_version =>
      let si := { site_info with tool_version := tool_version,
                                 version := "V" ++ tool_version }
      if tool_version = "4.1" then
        { si with site_group := "Groningen", actual_site := "Groningen",
                  characteristics := si.characteristics ++ ["V4.1_format"],
                  confidence := "high" }
      else if tool_version = "4.2" then
        detectAmsLeiW6 content file_path
          { si with site_group := "AmsLei",
                    characteristics := si.characteristics
                      ++ ["V4.2_format", "ASL_capable"] }
      else si
    | none => site_info
  addCharacteristicsW6 content site_info

/-! ### Supporting lemmas for C4 -/

theorem addCharacteristics_actual_site (c : String) (si : SiteInfo) :
    (addCharacteristics c si).actual_site = si.actual_site := by
  unfold addCharacteristics
  split <;> split <;> split <;> rfl

theorem addCharacteristics_confidence (c : String) (si : SiteInfo) :
    (addCharacteristics c si).confidence = si.confidence := by
  unfold addCharacteristics
  split <;> split <;> split <;> rfl

theorem addCharacteristicsW6_actual_site (c : String) (si : SiteInfoW6) :
    (addCharacteristicsW6 c si).actual_site = si.actual_site := by
  unfold addCharacteristicsW6
  split <;> split <;> split <;> rfl

theorem addCharacteristicsW6_confidence (c : String) (si : SiteInfoW6) :
    (addCharacteristicsW6 c si).confidence = si.confidence := by
  unfold addCharacteristicsW6
  split <;> split <;> split <;> rfl

/-- C4.  Site-detection invariant: whenever the export-tool version
extracted from the header text is `"4.1"`, both detector variants report
site Groningen with high confidence — for every header text and file path,
hence regardless of any patient-name content; and detection is a total
function whose no-version case simply reports the defaulted site
`"unknown"` with low confidence rather than failing. -/
theorem site_detection_v41 (content file_path : String) :
    (toolVersionMatch content = some "4.1" →
        ((detect_nesda_site content file_path).actual_site = "Groningen"
            ∧ (detect_nesda_site content file_path).confidence = "high")
          ∧ ((detect_nesda_site_w6 content file_path).actual_site = "Groningen"
            ∧ (detect_nesda_site_w6 content file_path).confidence = "high"))
      ∧ (toolVersionMatch content = none →
          (detect_nesda_site content file_path).actual_site = "unknown"
            ∧ (detect_nesda_site content file_path).confidence = "low") := by
  constructor
  · intro h
    unfold detect_nesda_site detect_nesda_site_w6
    rw [h]
    simp only [addCharacteristics_actual_site, addCharacteristics_confidence,
      addCharacteristicsW6_actual_site, addCharacteristicsW6_confidence,
      if_pos rfl]
    exact ⟨⟨rfl, rfl⟩, rfl, rfl⟩
  · intro h
    unfold detect_nesda_site
    rw [h]
    simp only [addCharacteristics_actual_site, addCharacteristics_confidence]
    exact ⟨rfl, rfl⟩

/-- Witness for C4 on a concrete V4.1 header whose patient name carries a
Leiden marker, and on the empty header. -/
theorem site_detection_v41_witness :
    ((detect_nesda_site "Research image export tool V4.1\nPatient name : LUMC LEIDEN"
        "D:/x").actual_site = "Groningen"
      ∧ (detect_nesda_site "Research image export tool V4.1\nPatient name : LUMC LEIDEN"
        "D:/x").confidence = "high")
      ∧ (detect_nesda_site "" "D:/x").actual_site = "unknown"
        ∧ (detect_nesda_site "" "D:/x").confidence = "low" :=
  ⟨((site_detection_v41 "Research image export tool V4.1\nPatient name : LUMC LEIDEN"
      "D:/x").1 (by decide)).1,
   (site_detection_v41 "" "D:/x").2 (by decide)⟩

/-! ## JSON documents and the sidecar merge

Embedding of `update_bids_json` (`batch_bids_par_updater.py` lines 546-608),
`update_bids_json_w6` (`nesda_W6_bids_par_update.py` lines 482-539) and
`update_json_with_complete_params` (`nesda_json_updater.py` lines 516-568).
JSON values are `JValue`; documents are ordered association lists, matching
CPython dicts (insertion-ordered, unique keys); `d[k] = v` is `setKey`. -/

/-- A JSON value. -/
inductive JValue where
  | jnull
  | jbool (b : Bool)
  | jnum (q : ℚ)
  | jstr (s : String)
  | jarr (l : List JValue)
  | jobj (l : List (String × JValue))

mutual

/-- Decidable equality of JSON values (Python `==` on parsed JSON). -/
def decEqJValue : (a b : JValue) → Decidable (a = b)
  | .jnull, .jnull => isTrue rfl
  | .jbool a, .jbool b =>
    if h : a = b then isTrue (by rw [h]) else isFalse (by simp [h])
  | .jnum a, .jnum b =>
    if h : a = b then isTrue (by rw [h]) else isFalse (by simp [h])
  | .jstr a, .jstr b =>
    if h : a = b then isTrue (by rw [h]) else isFalse (by simp [h])
  | .jarr a, .jarr b =>
    match decEqJList a b with
    | isTrue h => isTrue (by rw [h])
    | isFalse h => isFalse (by simp [h])
  | .jobj a, .jobj b =>
    match decEqJObj a b with
    | isTrue h => isTrue (by rw [h])
    | isFalse h => isFalse (by simp [h])
  | .jnull, .jbool _ => isFalse (fun h => JValue.noConfusion h)
  | .jnull, .jnum _ => isFalse (fun h => JValue.noConfusion h)
  | .jnull, .jstr _ => isFalse (fun h => JValue.noConfusion h)
  | .jnull, .jarr _ => isFalse (fun h => JValue.noConfusion h)
  | .jnull, .jobj _ => isFalse (fun h => JValue.noConfusion h)
  | .jbool _, .jnull => isFalse (fun h => JValue.noConfusion h)
  | .jbool _, .jnum _ => isFalse (fun h => JValue.noConfusion h)
  | .jbool _, .jstr _ => isFalse (fun h => JValue.noConfusion h)
  | .jbool _, .jarr _ => isFalse (fun h => JValue.noConfusion h)
  | .jbool _, .jobj _ => isFalse (fun h => JValue.noConfusion h)
  | .jnum _, .jnull => isFalse (fun h => JValue.noConfusion h)
  | .jnum _, .jbool _ => isFalse (fun h => JValue.noConfusion h)
  | .jnum _, .jstr _ => isFalse (fun h => JValue.noConfusion h)
  | .jnum _, .jarr _ => isFalse (fun h => JValue.noConfusion h)
  | .jnum _, .jobj _ => isFalse (fun h => JValue.noConfusion h)
  | .jstr _, .jnull => isFalse (fun h => JValue.noConfusion h)
  | .jstr _, .jbool _ => isFalse (fun h => JValue.noConfusion h)
  | .jstr _, .jnum _ => isFalse (fun h => JValue.noConfusion h)
  | .jstr _, .jarr _ => isFalse (fun h => JValue.noConfusion h)
  | .jstr _, .jobj _ => isFalse (fun h => JValue.noConfusion h)
  | .jarr _, .jnull => isFalse (fun h => JValue.noConfusion h)
  | .jarr _, .jbool _ => isFalse (fun h => JValue.noConfusion h)
  | .jarr _, .jnum _ => isFalse (fun h => JValue.noConfusion h)
  | .jarr _, .jstr _ => isFalse (fun h => JValue.noConfusion h)
  | .jarr _, .jobj _ => isFalse (fun h => JValue.noConfusion h)
  | .jobj _, .jnull => isFalse (fun h => JValue.noConfusion h)
  | .jobj _, .jbool _ => isFalse (fun h => JValue.noConfusion h)
  | .jobj _, .jnum _ => isFalse (fun h => JValue.noConfusion h)
  | .jobj _, .jstr _ => isFalse (fun h => JValue.noConfusion h)
  | .jobj _, .jarr _ => isFalse (fun h => JValue.noConfusion h)

/-- Decidable equality of JSON arrays. -/
def decEqJList : (a b : List JValue) → Decidable (a = b)
  | [], [] => isTrue rfl
  | [], _ :: _ => isFalse (fun h => List.noConfusion h)
  | _ :: _, [] => isFalse (fun h => List.noConfusion h)
  | x :: xs, y :: ys =>
    match decEqJValue x y with
    | isTrue h1 =>
      match decEqJList xs ys with
      | isTrue h2 => isTrue (by rw [h1, h2])
      | isFalse h2 => isFalse (by simp [h2])
    | isFalse h1 => isFalse (by simp [h1])

/-- Decidable equality of JSON objects. -/
def decEqJObj : (a b : List (String × JValue)) → Decidable (a = b)
  | [], [] => isTrue rfl
  | [], _ :: _ => isFalse (fun h => List.noConfusion h)
  | _ :: _, [] => isFalse (fun h => List.noConfusion h)
  | (k1, v1) :: xs, (k2, v2) :: ys =>
    if hk : k1 = k2 then
      match decEqJValue v1 v2 with
      | isTrue h1 =>
        match decEqJObj xs ys with
        | isTrue h2 => isTrue (by rw [hk, h1, h2])
        | isFalse h2 => isFalse (by simp [h2])
      | isFalse h1 => isFalse (by simp [h1])
    else isFalse (by simp [hk])

end

instance : DecidableEq JValue := decEqJValue

/-- Python `d[k]` / `k in d`: the value at the first binding of `k`. -/
def lookupKey (k : String) : List (String × JValue) → Option JValue
  | [] => none
  | (k', v) :: t => if k' = k then some v else lookupKey k t

/-- Python `d[k] = v`: replace the first binding of `k` in place, or append
a new binding at the end. -/
def setKey (k : String) (v : JValue) : List (String × JValue) → List (String × JValue)
  | [] => [(k, v)]
  | (k', v') :: t => if k' = k then (k, v) :: t else (k', v') :: setKey k v t

/-- Python's `s.startswith(pre)`. -/
def pyStartsWith (pre s : String) : Bool :=
  litAt pre.data s.data

/-- State of the merge loop: the document plus the `added_fields` and
`updated_fields` accumulators. -/
structure MergeState where
  doc : List (String × JValue)
  added : List String
  updated : List String
  deriving DecidableEq

/-- One iteration of
`for field_name, field_value in bids_params.items(): ...`:
keys starting with `'_'` are skipped; a present key with a different value
is overwritten and recorded in `updated_fields`; an absent key is added and
recorded in `added_fields`; a present key with an equal value is left
alone. -/
def mergeStep (s : MergeState) (kv : String × JValue) : MergeState :=
  if pyStartsWith "_" kv.1 then s
  else
    match lookupKey kv.1 s.doc with
    | some v0 =>
      if v0 ≠ kv.2 then
        { doc := setKey kv.1 kv.2 s.doc, added := s.added, updated := s.updated ++ [kv.1] }
      else s
    | none =>
      { doc := setKey kv.1 kv.2 s.doc, added := s.added ++ [kv.1], updated := s.updated }

/-- The whole merge loop over the extracted field set. -/
def mergeFields (doc : List (String × JValue)) (params : List (String × JValue)) :
    MergeState :=
  params.foldl mergeStep ⟨doc, [], []⟩

/-- `site_info.get(key, default)` on the `_SiteInfo` entry of the field
set (an empty dict when absent or not an object). -/
def siteInfoOf (params : List (String × JValue)) : List (String × JValue) :=
  match lookupKey "_SiteInfo" params with
  | some (JValue.jobj l) => l
  | _ => []

/-- `d.get(k, default)`. -/
def jget (l : List (String × JValue)) (k : String) (d : JValue) : JValue :=
  (lookupKey k l).getD d

/-- The `_BIDSProcessingInfo` block written by `update_bids_json`
(`batch_bids_par_updater.py` lines 580-599); `datetime.now().isoformat()`
is the parameter `nowIso`. -/
def bidsProcessingInfo (params : List (String × JValue)) (nowIso : String)
    (added updated : List String) : JValue :=
  JValue.jobj
    [("ProcessedBy", JValue.jstr "JulianGaviriaL"),
     ("ProcessingDateTime", JValue.jstr nowIso),
     ("ProcessingScript", JValue.jstr "batch_bids_par_updater.py"),
     ("NESDAMultiSite", JValue.jbool true),
     ("SupportedSites", JValue.jarr
        [JValue.jstr "Groningen", JValue.jstr "Amsterdam", JValue.jstr "Leiden"]),
     ("DetectedSite", jget (siteInfoOf params) "actual_site" (JValue.jstr "unknown")),
     ("SiteConfidence", jget (siteInfoOf params) "confidence" (JValue.jstr "unknown")),
     ("PAR_Version", jget (siteInfoOf params) "version" (JValue.jstr "unknown")),
     ("PhilipsSpecific", JValue.jbool true),
     ("SliceTimingCorrected", JValue.jstr "2025-09-10"),
     ("ExtractionCapabilities", JValue.jobj
        [("SliceEncodingDirection", JValue.jstr "Multi-strategy detection"),
         ("PhaseEncodingDirection", JValue.jstr "From Preparation direction"),
         ("SliceTimingMethod",
            JValue.jstr "Interleaved ascending from bottom (CORRECTED)"),
         ("EffectiveEchoSpacing", JValue.jstr "Water-Fat shift calculation")]),
     ("FieldsAdded", JValue.jarr (added.map JValue.jstr)),
     ("FieldsUpdated", JValue.jarr (updated.map JValue.jstr))]

/-- The `_BIDSProcessingInfo` block written by `update_bids_json_w6`
(`nesda_W6_bids_par_update.py` lines 516-530). -/
def bidsProcessingInfoW6 (params : List (String × JValue)) (nowIso : String)
    (added updated : List String) : JValue :=
  JValue.jobj
    [("ProcessedBy", JValue.jstr "JulianGaviriaL"),
     ("ProcessingDateTime", JValue.jstr nowIso),
     ("ProcessingScript", JValue.jstr "nesda_w6_bids_par_updater.py"),
     ("DataWave", JValue.jstr "W6"),
     ("BIDSStructure", JValue.jbool true),
     ("NESDAMultiSite", JValue.jbool true),
     ("SupportedSites", JValue.jarr
        [JValue.jstr "Groningen", JValue.jstr "Amsterdam", JValue.jstr "Leiden"]),
     ("DetectedSite", jget (siteInfoOf params) "actual_site" (JValue.jstr "unknown")),
     ("SiteConfidence", jget (siteInfoOf params) "confidence" (JValue.jstr "unknown")),
     ("PAR_Version", jget (siteInfoOf params) "version" (JValue.jstr "unknown")),
     ("W6_Specific", JValue.jbool true),
     ("FieldsAdded", JValue.jarr (added.map JValue.jstr)),
     ("FieldsUpdated", JValue.jarr (updated.map JValue.jstr))]

/-- The exact 39 target subject identifiers of `nesda_json_updater.py`. -/
def TARGET_SUBJECTS : List String :=
  ["sub-110520", "sub-110553", "sub-110580", "sub-110584", "sub-110596",
   "sub-110614", "sub-110639", "sub-110643", "sub-110653", "sub-110654",
   "sub-110662", "sub-110664", "sub-110672", "sub-110688", "sub-110702",
   "sub-110706", "sub-110716", "sub-110723", "sub-110727", "sub-110754",
   "sub-110770", "sub-110784", "sub-110794", "sub-110797", "sub-110801",
   "sub-110819", "sub-110834", "sub-110854", "sub-110855", "sub-110861",
   "sub-120374", "sub-120376", "sub-120392", "sub-120394", "sub-120404",
   "sub-120409", "sub-120417", "sub-210456", "sub-500150"]

/-- The `_NESDAProcessingInfo` block written by
`update_json_with_complete_params` (`nesda_json_updater.py` lines
549-559). -/
def nesdaProcessingInfo (nowIso : String) (added updated : List String) : JValue :=
  JValue.jobj
    [("ProcessedBy", JValue.jstr "JulianGaviriaL"),
     ("ProcessingDateTime", JValue.jstr nowIso),
     ("ProcessingScript", JValue.jstr "nesda_targeted_bids_updater.py"),
     ("DataCollection", JValue.jstr "NESDA"),
     ("TargetedProcessing", JValue.jbool true),
     ("TargetSubjects", JValue.jnum (TARGET_SUBJECTS.length : ℚ)),
     ("AcquisitionType", JValue.jstr "interleaved_ascending"),
     ("FieldsAdded", JValue.jarr (added.map JValue.jstr)),
     ("FieldsUpdated", JValue.jarr (updated.map JValue.jstr))]

/-- The merge body of `update_bids_json`: merge loop, then the wholesale
`json_data['_BIDSProcessingInfo'] = {...}` assignment. -/
def update_bids_json (doc params : List (String × JValue)) (nowIso : String) :
    MergeState :=
  let s := mergeFields doc params
  { doc := setKey "_BIDSProcessingInfo"
      (bidsProcessingInfo params nowIso s.added s.updated) s.doc,
    added := s.added, updated := s.updated }

/-- The merge body of `update_bids_json_w6`. -/
def update_bids_json_w6 (doc params : List (String × JValue)) (nowIso : String) :
    MergeState :=
  let s := mergeFields doc params
  { doc := setKey "_BIDSProcessingInfo"
      (bidsProcessingInfoW6 params nowIso s.added s.updated) s.doc,
    added := s.added, updated := s.updated }

/-- The merge body of `update_json_with_complete_params`
(`nesda_json_updater.py`), whose reserved key is `_NESDAProcessingInfo`. -/
def update_json_with_complete_params (doc params : List (String × JValue))
    (nowIso : String) : MergeState :=
  let s := mergeFields doc params
  { doc := setKey "_NESDAProcessingInfo"
      (nesdaProcessingInfo nowIso s.added s.updated) s.doc,
    added := s.added, updated := s.updated }

/-- A wall-clock instant, standing in for `datetime.now()`. -/
structure DateTime where
  year : ℕ
  month : ℕ
  day : ℕ
  hour : ℕ
  minute : ℕ
  second : ℕ
  deriving DecidableEq

/-- Zero-pad a number to `w` digits, as the `strftime` field formats do. -/
def padZeros (w : ℕ) (n : ℕ) : String :=
  let s := toString n
  ⟨List.replicate (w - s.length) '0' ++ s.data⟩

/-- `datetime.now().strftime('%Y%m%d_%H%M%S')`, the backup timestamp used
by every updater script. -/
def strftimeBackup (dt : DateTime) : String :=
  padZeros 4 dt.year ++ padZeros 2 dt.month ++ padZeros 2 dt.day ++ "_"
    ++ padZeros 2 dt.hour ++ padZeros 2 dt.minute ++ padZeros 2 dt.second

/-- One full invocation of `update_bids_json` with `create_backup=True`:
`shutil.copy2(json_file_path, f"{json_file_path}.backup_{timestamp}")`
before the sidecar is read or written, then the merge.  `backupContent` is
the copied file content, i.e. the pre-merge document; `dt` is the
`datetime.now()` of the backup timestamp and `nowIso` the
`datetime.now().isoformat()` of the provenance block. -/
structure UpdateRun where
  backupPath : String
  backupContent : List (String × JValue)
  doc : List (String × JValue)
  added : List String
  updated : List String
  deriving DecidableEq

/-- `update_bids_json(json_file_path, bids_params, create_backup=True)`. -/
def update_bids_json_run (json_file_path : String)
    (doc params : List (String × JValue)) (dt : DateTime) (nowIso : String) :
    UpdateRun :=
  let m := update_bids_json doc params nowIso
  { backupPath := json_file_path ++ ".backup_" ++ strftimeBackup dt,
    backupContent := doc,
    doc := m.doc, added := m.added, updated := m.updated }

/-- The `_ProcessingInfo` block written by `update_json_file`
(`nesda_single_subject_updater.py` lines 338-346). -/
def singleSubjectProcessingInfo (nowIso : String) (added updated : List String) :
    JValue :=
  JValue.jobj
    [("ProcessedBy", JValue.jstr "JulianGaviriaL"),
     ("ProcessingDateTime", JValue.jstr nowIso),
     ("Subject", JValue.jstr "sub-210456"),
     ("Session", JValue.jstr "ses-lei02"),
     ("SingleSubjectRerun", JValue.jbool true),
     ("FieldsAdded", JValue.jarr (added.map JValue.jstr)),
     ("FieldsUpdated", JValue.jarr (updated.map JValue.jstr))]

/-- The merge body of `update_json_file` (`nesda_single_subject_updater.py`,
reserved key `_ProcessingInfo`). -/
def update_json_file (doc params : List (String × JValue)) (nowIso : String) :
    MergeState :=
  let s := mergeFields doc params
  { doc := setKey "_ProcessingInfo"
      (singleSubjectProcessingInfo nowIso s.added s.updated) s.doc,
    added := s.added, updated := s.updated }

/-- One full invocation of `update_json_file`, which creates its backup
unconditionally before reading the sidecar. -/
def update_json_file_run (json_file_path : String)
    (doc params : List (String × JValue)) (dt : DateTime) (nowIso : String) :
    UpdateRun :=
  let m := update_json_file doc params nowIso
  { backupPath := json_file_path ++ ".backup_" ++ strftimeBackup dt,
    backupContent := doc,
    doc := m.doc, added := m.added, updated := m.updated }

/-! ### Supporting lemmas for the merge claims -/

theorem lookupKey_setKey_self (k : String) (v : JValue) (d : List (String × JValue)) :
    lookupKey k (setKey k v d) = some v := by
  induction d with
  | nil => simp [setKey, lookupKey]
  | cons p t ih =>
    obtain ⟨k', v'⟩ := p
    by_cases h : k' = k
    · simp [setKey, lookupKey, h]
    · simp [setKey, lookupKey, h, ih]

theorem lookupKey_setKey_ne (k k' : String) (v : JValue) (d : List (String × JValue))
    (h : k' ≠ k) : lookupKey k (setKey k' v d) = lookupKey k d := by
  induction d with
  | nil => simp [setKey, lookupKey, h]
  | cons p t ih =>
    obtain ⟨k1, v1⟩ := p
    by_cases h1 : k1 = k'
    · subst h1
      simp [setKey, lookupKey, h]
    · simp only [setKey, if_neg h1, lookupKey]
      by_cases h2 : k1 = k
      · simp [h2]
      · simp [h2, ih]

/-- `mergeStep` at a non-internal key absent from the document. -/
theorem mergeStep_none (s : MergeState) (k : String) (v : JValue)
    (hus : pyStartsWith "_" k = false) (hdoc : lookupKey k s.doc = none) :
    mergeStep s (k, v) =
      { doc := setKey k v s.doc, added := s.added ++ [k], updated := s.updated } := by
  unfold mergeStep
  simp [hus, hdoc]

/-- `mergeStep` at a non-internal key present with a different value. -/
theorem mergeStep_some_ne (s : MergeState) (k : String) (v v0 : JValue)
    (hus : pyStartsWith "_" k = false) (hdoc : lookupKey k s.doc = some v0)
    (hv : v0 ≠ v) :
    mergeStep s (k, v) =
      { doc := setKey k v s.doc, added := s.added, updated := s.updated ++ [k] } := by
  unfold mergeStep
  simp [hus, hdoc, hv]

/-- `mergeStep` at a non-internal key present with an equal value. -/
theorem mergeStep_some_eq (s : MergeState) (k : String) (v : JValue)
    (hus : pyStartsWith "_" k = false) (hdoc : lookupKey k s.doc = some v) :
    mergeStep s (k, v) = s := by
  unfold mergeStep
  simp [hus, hdoc]

theorem mergeStep_preserve (s : MergeState) (kv : String × JValue) (k : String)
    (h : kv.1 ≠ k) :
    lookupKey k (mergeStep s kv).doc = lookupKey k s.doc
      ∧ (k ∈ (mergeStep s kv).added ↔ k ∈ s.added)
      ∧ (k ∈ (mergeStep s kv).updated ↔ k ∈ s.updated) := by
  unfold mergeStep
  split
  · exact ⟨rfl, Iff.rfl, Iff.rfl⟩
  · split
    · split
      · exact ⟨lookupKey_setKey_ne k kv.1 kv.2 s.doc h,
          Iff.rfl, by simp [List.mem_append, h.symm]⟩
      · exact ⟨rfl, Iff.rfl, Iff.rfl⟩
    · exact ⟨lookupKey_setKey_ne k kv.1 kv.2 s.doc h,
        by simp [List.mem_append, h.symm], Iff.rfl⟩

theorem mergeFoldl_preserve (l : List (String × JValue)) (s : MergeState) (k : String)
    (h : ∀ p ∈ l, p.1 ≠ k) :
    lookupKey k (l.foldl mergeStep s).doc = lookupKey k s.doc
      ∧ (k ∈ (l.foldl mergeStep s).added ↔ k ∈ s.added)
      ∧ (k ∈ (l.foldl mergeStep s).updated ↔ k ∈ s.updated) := by
  induction l generalizing s with
  | nil => exact ⟨rfl, Iff.rfl, Iff.rfl⟩
  | cons p t ih =>
    have hp := mergeStep_preserve s p k (h p (List.mem_cons_self p t))
    have ht := ih (mergeStep s p) (fun q hq => h q (List.mem_cons_of_mem p hq))
    rw [List.foldl_cons]
    exact ⟨ht.1.trans hp.1, ht.2.1.trans hp.2.1, ht.2.2.trans hp.2.2⟩

theorem mergeFoldl_mem_lookup (l : List (String × JValue)) (s : MergeState)
    (k : String) (v : JValue) (hnd : (l.map Prod.fst).Nodup) (hmem : (k, v) ∈ l)
    (hus : pyStartsWith "_" k = false) :
    lookupKey k (l.foldl mergeStep s).doc = some v := by
  induction l generalizing s with
  | nil => cases hmem
  | cons p t ih =>
    obtain ⟨k1, v1⟩ := p
    rw [List.map_cons, List.nodup_cons] at hnd
    rcases List.mem_cons.mp hmem with heq | hmemt
    · injection heq with hk1 hv1
      subst hk1
      subst hv1
      have hnt : ∀ q ∈ t, q.1 ≠ k := fun q hq hqk =>
        hnd.1 (List.mem_map.mpr ⟨q, hq, hqk⟩)
      rw [List.foldl_cons, (mergeFoldl_preserve t _ k hnt).1]
      cases hdoc : lookupKey k s.doc with
      | none =>
        rw [mergeStep_none s k v hus hdoc]
        exact lookupKey_setKey_self k v s.doc
      | some v0 =>
        by_cases hv : v0 = v
        · subst hv
          rw [mergeStep_some_eq s k v0 hus hdoc]
          exact hdoc
        · rw [mergeStep_some_ne s k v v0 hus hdoc hv]
          exact lookupKey_setKey_self k v s.doc
    · have hk1 : k1 ≠ k := fun hh =>
        hnd.1 (hh ▸ List.mem_map.mpr ⟨(k, v), hmemt, rfl⟩)
      rw [List.foldl_cons]
      exact ih (mergeStep s (k1, v1)) hnd.2 hmemt

theorem mergeFoldl_absent (l : List (String × JValue)) (s : MergeState)
    (k : String) (v : JValue) (hnd : (l.map Prod.fst).Nodup) (hmem : (k, v) ∈ l)
    (hus : pyStartsWith "_" k = false) (hla : k ∉ s.added) (hlu : k ∉ s.updated)
    (hdoc : lookupKey k s.doc = none) :
    k ∈ (l.foldl mergeStep s).added ∧ k ∉ (l.foldl mergeStep s).updated := by
  induction l generalizing s with
  | nil => cases hmem
  | cons p t ih =>
    obtain ⟨k1, v1⟩ := p
    rw [List.map_cons, List.nodup_cons] at hnd
    rcases List.mem_cons.mp hmem with heq | hmemt
    · injection heq with hk1 hv1
      subst hk1
      subst hv1
      have hnt : ∀ q ∈ t, q.1 ≠ k := fun q hq hqk =>
        hnd.1 (List.mem_map.mpr ⟨q, hq, hqk⟩)
      rw [List.foldl_cons, mergeStep_none s k v hus hdoc]
      have hpres := mergeFoldl_preserve t
        ⟨setKey k v s.doc, s.added ++ [k], s.updated⟩ k hnt
      refine ⟨hpres.2.1.mpr (by simp), fun hmem2 => hlu (hpres.2.2.mp hmem2)⟩
    · have hk1 : k1 ≠ k := fun hh =>
        hnd.1 (hh ▸ List.mem_map.mpr ⟨(k, v), hmemt, rfl⟩)
      have hp := mergeStep_preserve s (k1, v1) k hk1
      rw [List.foldl_cons]
      exact ih (mergeStep s (k1, v1)) hnd.2 hmemt
        (fun hh => hla (hp.2.1.mp hh)) (fun hh => hlu (hp.2.2.mp hh)) (hp.1.trans hdoc)

theorem mergeFoldl_update (l : List (String × JValue)) (s : MergeState)
    (k : String) (v v0 : JValue) (hnd : (l.map Prod.fst).Nodup) (hmem : (k, v) ∈ l)
    (hus : pyStartsWith "_" k = false) (hla : k ∉ s.added) (hlu : k ∉ s.updated)
    (hdoc : lookupKey k s.doc = some v0) (hne : v0 ≠ v) :
    k ∈ (l.foldl mergeStep s).updated ∧ k ∉ (l.foldl mergeStep s).added := by
  induction l generalizing s with
  | nil => cases hmem
  | cons p t ih =>
    obtain ⟨k1, v1⟩ := p
    rw [List.map_cons, List.nodup_cons] at hnd
    rcases List.mem_cons.mp hmem with heq | hmemt
    · injection heq with hk1 hv1
      subst hk1
      subst hv1
      have hnt : ∀ q ∈ t, q.1 ≠ k := fun q hq hqk =>
        hnd.1 (List.mem_map.mpr ⟨q, hq, hqk⟩)
      rw [List.foldl_cons, mergeStep_some_ne s k v v0 hus hdoc hne]
      have hpres := mergeFoldl_preserve t
        ⟨setKey k v s.doc, s.added, s.updated ++ [k]⟩ k hnt
      refine ⟨hpres.2.2.mpr (by simp), fun hmem2 => hla (hpres.2.1.mp hmem2)⟩
    · have hk1 : k1 ≠ k := fun hh =>
        hnd.1 (hh ▸ List.mem_map.mpr ⟨(k, v), hmemt, rfl⟩)
      have hp := mergeStep_preserve s (k1, v1) k hk1
      rw [List.foldl_cons]
      exact ih (mergeStep s (k1, v1)) hnd.2 hmemt
        (fun hh => hla (hp.2.1.mp hh)) (fun hh => hlu (hp.2.2.mp hh))
        (hp.1.trans hdoc)

theorem mergeFoldl_equal (l : List (String × JValue)) (s : MergeState)
    (k : String) (v : JValue) (hnd : (l.map Prod.fst).Nodup) (hmem : (k, v) ∈ l)
    (hus : pyStartsWith "_" k = false) (hla : k ∉ s.added) (hlu : k ∉ s.updated)
    (hdoc : lookupKey k s.doc = some v) :
    k ∉ (l.foldl mergeStep s).added ∧ k ∉ (l.foldl mergeStep s).updated := by
  induction l generalizing s with
  | nil => cases hmem
  | cons p t ih =>
    obtain ⟨k1, v1⟩ := p
    rw [List.map_cons, List.nodup_cons] at hnd
    rcases List.mem_cons.mp hmem with heq | hmemt
    · injection heq with hk1 hv1
      subst hk1
      subst hv1
      have hnt : ∀ q ∈ t, q.1 ≠ k := fun q hq hqk =>
        hnd.1 (List.mem_map.mpr ⟨q, hq, hqk⟩)
      rw [List.foldl_cons, mergeStep_some_eq s k v hus hdoc]
      have hpres := mergeFoldl_preserve t s k hnt
      exact ⟨fun hh => hla (hpres.2.1.mp hh), fun hh => hlu (hpres.2.2.mp hh)⟩
    · have hk1 : k1 ≠ k := fun hh =>
        hnd.1 (hh ▸ List.mem_map.mpr ⟨(k, v), hmemt, rfl⟩)
      have hp := mergeStep_preserve s (k1, v1) k hk1
      rw [List.foldl_cons]
      exact ih (mergeStep s (k1, v1)) hnd.2 hmemt
        (fun hh => hla (hp.2.1.mp hh)) (fun hh => hlu (hp.2.2.mp hh)) (hp.1.trans hdoc)

theorem mergeFoldl_noop (l : List (String × JValue)) (d : List (String × JValue))
    (a u : List String)
    (h : ∀ p ∈ l, pyStartsWith "_" p.1 = false → lookupKey p.1 d = some p.2) :
    l.foldl mergeStep ⟨d, a, u⟩ = ⟨d, a, u⟩ := by
  induction l with
  | nil => rfl
  | cons p t ih =>
    rw [List.foldl_cons]
    have hstep : mergeStep ⟨d, a, u⟩ p = ⟨d, a, u⟩ := by
      obtain ⟨k1, v1⟩ := p
      cases hus : pyStartsWith "_" k1 with
      | true =>
        unfold mergeStep
        simp [hus]
      | false =>
        exact mergeStep_some_eq _ k1 v1 hus (h (k1, v1) (List.mem_cons_self _ t) hus)
    rw [hstep]
    exact ih (fun q hq => h q (List.mem_cons_of_mem p hq))

theorem reserved_ne_of_not_underscore (k r : String)
    (hk : pyStartsWith "_" k = false) (hr : pyStartsWith "_" r = true) : r ≠ k := by
  intro h
  rw [h, hk] at hr
  cases hr

/-- A merge over a document that already stores every non-internal field of
the field set at its field value is a no-op on the document and records
nothing. -/
theorem update_bids_json_noop (d1 params : List (String × JValue)) (iso2 : String)
    (h : ∀ p ∈ params, pyStartsWith "_" p.1 = false → lookupKey p.1 d1 = some p.2) :
    update_bids_json d1 params iso2 =
      { doc := setKey "_BIDSProcessingInfo" (bidsProcessingInfo params iso2 [] []) d1,
        added := [], updated := [] } := by
  unfold update_bids_json mergeFields
  rw [mergeFoldl_noop params d1 [] [] h]

/-! ## Claim theorems C5, C6, C7 and C9 -/

/-- C5.  Merge contract: for every non-internal field `(k, v)` of the
extracted field set and every well-formed sidecar, `update_bids_json` adds
the key and records it in `FieldsAdded` when absent; overwrites and records
it in `FieldsUpdated` when present with an unequal value; and leaves the
entry unchanged and unrecorded when present with an equal value.
`update_bids_json_w6` merges identically (its document differs only in the
reserved provenance block). -/
theorem merge_contract (doc params : List (String × JValue)) (nowIso : String)
    (hdnd : (doc.map Prod.fst).Nodup) (hpnd : (params.map Prod.fst).Nodup)
    (k : String) (v : JValue) (hkv : (k, v) ∈ params)
    (hk : pyStartsWith "_" k = false) :
    (lookupKey k doc = none →
        lookupKey k (update_bids_json doc params nowIso).doc = some v
          ∧ k ∈ (update_bids_json doc params nowIso).added
          ∧ k ∉ (update_bids_json doc params nowIso).updated)
      ∧ (∀ v0, lookupKey k doc = some v0 → v0 ≠ v →
          lookupKey k (update_bids_json doc params nowIso).doc = some v
            ∧ k ∈ (update_bids_json doc params nowIso).updated
            ∧ k ∉ (update_bids_json doc params nowIso).added)
      ∧ (lookupKey k doc = some v →
          lookupKey k (update_bids_json doc params nowIso).doc = some v
            ∧ k ∉ (update_bids_json doc params nowIso).added
            ∧ k ∉ (update_bids_json doc params nowIso).updated)
      ∧ lookupKey k (update_bids_json_w6 doc params nowIso).doc
          = lookupKey k (update_bids_json doc params nowIso).doc
      ∧ (update_bids_json_w6 doc params nowIso).added
          = (update_bids_json doc params nowIso).added
      ∧ (update_bids_json_w6 doc params nowIso).updated
          = (update_bids_json doc params nowIso).updated := by
  have hres : ("_BIDSProcessingInfo" : String) ≠ k :=
    reserved_ne_of_not_underscore k "_BIDSProcessingInfo" hk rfl
  have hcomm : lookupKey k (update_bids_json doc params nowIso).doc
      = lookupKey k (mergeFields doc params).doc :=
    lookupKey_setKey_ne k _ _ _ hres
  have hcommw6 : lookupKey k (update_bids_json_w6 doc params nowIso).doc
      = lookupKey k (mergeFields doc params).doc :=
    lookupKey_setKey_ne k _ _ _ hres
  have hlook : lookupKey k (mergeFields doc params).doc = some v :=
    mergeFoldl_mem_lookup params ⟨doc, [], []⟩ k v hpnd hkv hk
  refine ⟨?_, ?_, ?_, hcommw6.trans hcomm.symm, rfl, rfl⟩
  · intro hdoc
    have habs := mergeFoldl_absent params ⟨doc, [], []⟩ k v hpnd hkv hk
      (by simp) (by simp) hdoc
    exact ⟨hcomm.trans hlook, habs.1, habs.2⟩
  · intro v0 hdoc hne
    have hupd := mergeFoldl_update params ⟨doc, [], []⟩ k v v0 hpnd hkv hk
      (by simp) (by simp) hdoc hne
    exact ⟨hcomm.trans hlook, hupd.1, hupd.2⟩
  · intro hdoc
    have heq := mergeFoldl_equal params ⟨doc, [], []⟩ k v hpnd hkv hk
      (by simp) (by simp) hdoc
    exact ⟨hcomm.trans hlook, heq.1, heq.2⟩

/-- Witness for C5: merging `EchoTime` into a sidecar that lacks it. -/
theorem merge_contract_witness :
    lookupKey "EchoTime"
        (update_bids_json [("A", JValue.jstr "x")] [("EchoTime", JValue.jnum 3)] "T").doc
      = some (JValue.jnum 3)
    ∧ "EchoTime"
        ∈ (update_bids_json [("A", JValue.jstr "x")] [("EchoTime", JValue.jnum 3)] "T").added
    ∧ "EchoTime"
        ∉ (update_bids_json [("A", JValue.jstr "x")] [("EchoTime", JValue.jnum 3)] "T").updated :=
  (merge_contract [("A", JValue.jstr "x")] [("EchoTime", JValue.jnum 3)] "T"
    (by decide) (by decide) "EchoTime" (JValue.jnum 3) (by decide) (by decide)).1 (by decide)

/-- C6.  Non-destructive merge: every pre-existing sidecar key that is not a
key of the field set and is not the reserved provenance key maps to the same
value after the merge as before, for all three mergers. -/
theorem merge_frame (doc params : List (String × JValue)) (nowIso : String)
    (k : String) (hk : k ∉ params.map Prod.fst)
    (h1 : k ≠ "_BIDSProcessingInfo") (h2 : k ≠ "_NESDAProcessingInfo") :
    lookupKey k (update_bids_json doc params nowIso).doc = lookupKey k doc
      ∧ lookupKey k (update_bids_json_w6 doc params nowIso).doc = lookupKey k doc
      ∧ lookupKey k (update_json_with_complete_params doc params nowIso).doc
          = lookupKey k doc := by
  have hnp : ∀ p ∈ params, p.1 ≠ k := fun p hp hpk =>
    hk (List.mem_map.mpr ⟨p, hp, hpk⟩)
  have hpres := (mergeFoldl_preserve params ⟨doc, [], []⟩ k hnp).1
  exact ⟨(lookupKey_setKey_ne k "_BIDSProcessingInfo" _ _ (Ne.symm h1)).trans hpres,
    (lookupKey_setKey_ne k "_BIDSProcessingInfo" _ _ (Ne.symm h1)).trans hpres,
    (lookupKey_setKey_ne k "_NESDAProcessingInfo" _ _ (Ne.symm h2)).trans hpres⟩

/-- Witness for C6: a pre-existing key survives all three mergers. -/
theorem merge_frame_witness :
    lookupKey "Keep"
        (update_bids_json [("Keep", JValue.jstr "v")] [("A", JValue.jnum 1)] "T").doc
      = lookupKey "Keep" [("Keep", JValue.jstr "v")]
    ∧ lookupKey "Keep"
        (update_bids_json_w6 [("Keep", JValue.jstr "v")] [("A", JValue.jnum 1)] "T").doc
      = lookupKey "Keep" [("Keep", JValue.jstr "v")]
    ∧ lookupKey "Keep"
        (update_json_with_complete_params [("Keep", JValue.jstr "v")]
          [("A", JValue.jnum 1)] "T").doc
      = lookupKey "Keep" [("Keep", JValue.jstr "v")] :=
  merge_frame [("Keep", JValue.jstr "v")] [("A", JValue.jnum 1)] "T" "Keep"
    (by decide) (by decide) (by decide)

/-- C7 counterexample.  Merging the same field set twice does not leave the
full document content identical: even with an identical timestamp, the
second run rewrites the reserved `_BIDSProcessingInfo` block with
`FieldsAdded = []`, whereas the first run recorded `FieldsAdded =
["TaskName"]`. -/
theorem merge_idempotent_false :
    (update_bids_json
        (update_bids_json [] [("TaskName", JValue.jstr "rest")] "T").doc
        [("TaskName", JValue.jstr "rest")] "T").doc
      ≠ (update_bids_json [] [("TaskName", JValue.jstr "rest")] "T").doc := by
  decide

/-- C7 amended.  Merging the same field set twice in a row leaves every key
other than the reserved `_BIDSProcessingInfo` provenance block unchanged
after the first application; the second run records no added and no updated
fields; and the second run still creates a fresh timestamped backup, whose
content is the document produced by the first run. -/
theorem merge_idempotent_amended (path : String) (doc params : List (String × JValue))
    (dt1 dt2 : DateTime) (iso1 iso2 : String)
    (hpnd : (params.map Prod.fst).Nodup) :
    (∀ k, k ≠ "_BIDSProcessingInfo" →
        lookupKey k (update_bids_json_run path
            (update_bids_json_run path doc params dt1 iso1).doc params dt2 iso2).doc
          = lookupKey k (update_bids_json_run path doc params dt1 iso1).doc)
      ∧ (update_bids_json_run path (update_bids_json_run path doc params dt1 iso1).doc
          params dt2 iso2).added = []
      ∧ (update_bids_json_run path (update_bids_json_run path doc params dt1 iso1).doc
          params dt2 iso2).updated = []
      ∧ (update_bids_json_run path (update_bids_json_run path doc params dt1 iso1).doc
          params dt2 iso2).backupPath = path ++ ".backup_" ++ strftimeBackup dt2
      ∧ (update_bids_json_run path (update_bids_json_run path doc params dt1 iso1).doc
          params dt2 iso2).backupContent
          = (update_bids_json_run path doc params dt1 iso1).doc := by
  have hmem : ∀ p ∈ params, pyStartsWith "_" p.1 = false →
      lookupKey p.1 (update_bids_json doc params iso1).doc = some p.2 := by
    intro p hp hus
    have h1 : lookupKey p.1 (mergeFields doc params).doc = some p.2 :=
      mergeFoldl_mem_lookup params ⟨doc, [], []⟩ p.1 p.2 hpnd
        (by rwa [Prod.mk.eta]) hus
    have h2 := lookupKey_setKey_ne p.1 "_BIDSProcessingInfo"
      (bidsProcessingInfo params iso1 (mergeFields doc params).added
        (mergeFields doc params).updated)
      (mergeFields doc params).doc
      (reserved_ne_of_not_underscore p.1 "_BIDSProcessingInfo" hus rfl)
    exact h2.trans h1
  have h2 := update_bids_json_noop (update_bids_json doc params iso1).doc params iso2 hmem
  refine ⟨?_, ?_, ?_, rfl, rfl⟩
  · intro k hkres
    show lookupKey k
        (update_bids_json (update_bids_json doc params iso1).doc params iso2).doc
      = lookupKey k (update_bids_json doc params iso1).doc
    rw [h2]
    exact lookupKey_setKey_ne k _ _ _ (Ne.symm hkres)
  · show (update_bids_json (update_bids_json doc params iso1).doc params iso2).added = []
    rw [h2]
  · show (update_bids_json (update_bids_json doc params iso1).doc params iso2).updated = []
    rw [h2]

/-- Witness for C7 (amended) at a concrete sidecar, field set, and pair of
timestamps. -/
theorem merge_idempotent_amended_witness :
    (update_bids_json_run "a.json"
        (update_bids_json_run "a.json" [("A", JValue.jstr "x")]
          [("TaskName", JValue.jstr "rest")] ⟨2025, 9, 10, 14, 19, 55⟩ "T1").doc
        [("TaskName", JValue.jstr "rest")] ⟨2025, 9, 10, 14, 20, 7⟩ "T2").added = []
    ∧ (update_bids_json_run "a.json"
        (update_bids_json_run "a.json" [("A", JValue.jstr "x")]
          [("TaskName", JValue.jstr "rest")] ⟨2025, 9, 10, 14, 19, 55⟩ "T1").doc
        [("TaskName", JValue.jstr "rest")] ⟨2025, 9, 10, 14, 20, 7⟩ "T2").updated = [] :=
  ⟨(merge_idempotent_amended "a.json" [("A", JValue.jstr "x")]
      [("TaskName", JValue.jstr "rest")] ⟨2025, 9, 10, 14, 19, 55⟩
      ⟨2025, 9, 10, 14, 20, 7⟩ "T1" "T2" (by decide)).2.1,
   (merge_idempotent_amended "a.json" [("A", JValue.jstr "x")]
      [("TaskName", JValue.jstr "rest")] ⟨2025, 9, 10, 14, 19, 55⟩
      ⟨2025, 9, 10, 14, 20, 7⟩ "T1" "T2" (by decide)).2.2.1⟩

/-- C9 counterexample.  The backup file name uses
`strftime('%Y%m%d_%H%M%S')`, which contains an underscore between the date
and time parts, so the claimed shape `<path>.backup_<YYYYMMDDHHMMSS>` does
not match: at 2025-09-10 14:19:55 the code produces
`a.json.backup_20250910_141955`, not `a.json.backup_20250910141955`. -/
theorem backup_name_false :
    (update_bids_json_run "a.json" [] [] ⟨2025, 9, 10, 14, 19, 55⟩ "T").backupPath
        = "a.json.backup_20250910_141955"
      ∧ (update_bids_json_run "a.json" [] [] ⟨2025, 9, 10, 14, 19, 55⟩ "T").backupPath
        ≠ "a.json.backup_20250910141955" := by
  constructor <;> decide

/-- C9 amended.  For every merge invocation, before any write to the sidecar
a timestamped backup copy of the original sidecar file is created at
`<original-path>.backup_<YYYYMMDD_HHMMSS>` (the `strftime('%Y%m%d_%H%M%S')`
format, with an underscore separating date and time), holding exactly the
pre-merge document, so the merge is reversible from the backup; this holds
for the batch updater and the single-subject updater alike. -/
theorem backup_side_effect (path : String) (doc params : List (String × JValue))
    (dt : DateTime) (iso : String) :
    (update_bids_json_run path doc params dt iso).backupPath
        = path ++ ".backup_"
          ++ (padZeros 4 dt.year ++ padZeros 2 dt.month ++ padZeros 2 dt.day ++ "_"
              ++ padZeros 2 dt.hour ++ padZeros 2 dt.minute ++ padZeros 2 dt.second)
      ∧ (update_bids_json_run path doc params dt iso).backupContent = doc
      ∧ (update_json_file_run path doc params dt iso).backupPath
        = path ++ ".backup_"
          ++ (padZeros 4 dt.year ++ padZeros 2 dt.month ++ padZeros 2 dt.day ++ "_"
              ++ padZeros 2 dt.hour ++ padZeros 2 dt.minute ++ padZeros 2 dt.second)
      ∧ (update_json_file_run path doc params dt iso).backupContent = doc :=
  ⟨rfl, rfl, rfl, rfl⟩

/-! ## The targeted extractor `extract_complete_philips_params`

Full embedding of `extract_complete_philips_params`
(`nesda_json_updater.py` lines 58-460).  Sections appear in source order;
dict assignment is `setKey`, so the resulting association list carries the
source's key insertion order.  For the three Philips rescale keys the source
may interleave loop-assignments and default fills, which can permute those
three keys' insertion order; only their values are observable to the claims
and they are modelled by one `setKey` per key. -/

/-- `r'Patient position\s*:\s*([^\n\r]+)'`. -/
def patPosition1 : List Tok := [.lit "Patient position", .ws0, .lit ":", .ws0, .capLine]

/-- `r'patient position\s*:\s*([^\n\r]+)'`. -/
def patPosition2 : List Tok := [.lit "patient position", .ws0, .lit ":", .ws0, .capLine]

/-- `r'Series Type\s*:\s*([^\n\r]+)'`. -/
def patSeriesType : List Tok := [.lit "Series Type", .ws0, .lit ":", .ws0, .capLine]

/-- `r'series description\s*:\s*([^\n\r]+)'`. -/
def patSeriesDesc1 : List Tok := [.lit "series description", .ws0, .lit ":", .ws0, .capLine]

/-- `r'Series description\s*:\s*([^\n\r]+)'`. -/
def patSeriesDesc2 : List Tok := [.lit "Series description", .ws0, .lit ":", .ws0, .capLine]

/-- `r'Protocol name\s*:\s*([^\n\r]+)'`. -/
def patProtocol1 : List Tok := [.lit "Protocol name", .ws0, .lit ":", .ws0, .capLine]

/-- `r'protocol name\s*:\s*([^\n\r]+)'`. -/
def patProtocol2 : List Tok := [.lit "protocol name", .ws0, .lit ":", .ws0, .capLine]

/-- `r'Examination name\s*:\s*([^\n\r]+)'`. -/
def patProtocol3 : List Tok := [.lit "Examination name", .ws0, .lit ":", .ws0, .capLine]

/-- `r'Series nr\s*:\s*(\d+)'`. -/
def patSeriesNr1 : List Tok := [.lit "Series nr", .ws0, .lit ":", .ws0, .capDigits]

/-- `r'series number\s*:\s*(\d+)'`. -/
def patSeriesNr2 : List Tok := [.lit "series number", .ws0, .lit ":", .ws0, .capDigits]

/-- `r'Series number\s*:\s*(\d+)'`. -/
def patSeriesNr3 : List Tok := [.lit "Series number", .ws0, .lit ":", .ws0, .capDigits]

/-- `r'Acquisition nr\s*:\s*(\d+)'`. -/
def patAcqNr1 : List Tok := [.lit "Acquisition nr", .ws0, .lit ":", .ws0, .capDigits]

/-- `r'acquisition number\s*:\s*(\d+)'`. -/
def patAcqNr2 : List Tok := [.lit "acquisition number", .ws0, .lit ":", .ws0, .capDigits]

/-- `r'Acquisition number\s*:\s*(\d+)'`. -/
def patAcqNr3 : List Tok := [.lit "Acquisition number", .ws0, .lit ":", .ws0, .capDigits]

/-- `r'Echo time\s*\[ms\]\s*:\s*([\d.]+)'`. -/
def patTE1 : List Tok :=
  [.lit "Echo time", .ws0, .lit "[ms]", .ws0, .lit ":", .ws0, .capFloat]

/-- `r'TE\s*[=:]\s*([\d.]+)'`. -/
def patTE2 : List Tok := [.lit "TE", .ws0, .cls ['=', ':'], .ws0, .capFloat]

/-- `r'echo_time\s+([\d.]+)'`. -/
def patTE3 : List Tok := [.lit "echo_time", .ws1, .capFloat]

/-- `r'Repetition time \[ms\]\s*:\s*([\d.]+)'`. -/
def patTR1 : List Tok := [.lit "Repetition time [ms]", .ws0, .lit ":", .ws0, .capFloat]

/-- `r'TR\s*[=:]\s*([\d.]+)'`. -/
def patTR2 : List Tok := [.lit "TR", .ws0, .cls ['=', ':'], .ws0, .capFloat]

/-- `r'repetition_time\s+([\d.]+)'`. -/
def patTR3 : List Tok := [.lit "repetition_time", .ws1, .capFloat]

/-- `r'Max\.\s*number of slices/locations\s*:\s*(\d+)'`. -/
def patSlices1 : List Tok :=
  [.lit "Max.", .ws0, .lit "number of slices/locations", .ws0, .lit ":", .ws0, .capDigits]

/-- `r'Max\. number of slices/locations\s*:\s*(\d+)'`. -/
def patSlices2 : List Tok :=
  [.lit "Max. number of slices/locations", .ws0, .lit ":", .ws0, .capDigits]

/-- `r'number of slices\s*[=:]\s*(\d+)'`. -/
def patSlices3 : List Tok :=
  [.lit "number of slices", .ws0, .cls ['=', ':'], .ws0, .capDigits]

/-- `r'slice orientation \( TRA/SAG/COR \)\s*\(integer\)\s+(\d+)'`. -/
def patOrient1 : List Tok :=
  [.lit "slice orientation ( TRA/SAG/COR )", .ws0, .lit "(integer)", .ws1, .capDigits]

/-- `r'slice orientation\s*:\s*(\d+)'`. -/
def patOrient2 : List Tok := [.lit "slice orientation", .ws0, .lit ":", .ws0, .capDigits]

/-- `r'Preparation direction\s*:\s*([^\n\r]+)'`. -/
def patPrep1 : List Tok := [.lit "Preparation direction", .ws0, .lit ":", .ws0, .capLine]

/-- `r'preparation direction\s*:\s*([^\n\r]+)'`. -/
def patPrep2 : List Tok := [.lit "preparation direction", .ws0, .lit ":", .ws0, .capLine]

/-- `r'Phase encoding direction\s*:\s*([^\n\r]+)'`. -/
def patPrep3 : List Tok := [.lit "Phase encoding direction", .ws0, .lit ":", .ws0, .capLine]

/-- `r'Water Fat shift \[pixels\]\s*:\s*([\d.]+)'`. -/
def patWfs1 : List Tok := [.lit "Water Fat shift [pixels]", .ws0, .lit ":", .ws0, .capFloat]

/-- `r'water fat shift\s*:\s*([\d.]+)'`. -/
def patWfs2 : List Tok := [.lit "water fat shift", .ws0, .lit ":", .ws0, .capFloat]

/-- `r'WFS\s*:\s*([\d.]+)'`. -/
def patWfs3 : List Tok := [.lit "WFS", .ws0, .lit ":", .ws0, .capFloat]

/-- `r'recon resolution \(x,?\s*y\)\s*:\s*(\d+)\s+(\d+)'`. -/
def patRecon1 : List Tok :=
  [.lit "recon resolution (x", .optc ',', .ws0, .lit "y)", .ws0, .lit ":", .ws0,
   .capDigits, .ws1, .capDigits]

/-- `r'Recon resolution \(x,?\s*y\)\s*:\s*(\d+)\s+(\d+)'`. -/
def patRecon2 : List Tok :=
  [.lit "Recon resolution (x", .optc ',', .ws0, .lit "y)", .ws0, .lit ":", .ws0,
   .capDigits, .ws1, .capDigits]

/-- `r'Scan resolution\s*\(x,?\s*y\)\s*:\s*(\d+)\s+(\d+)'`. -/
def patRecon3 : List Tok :=
  [.lit "Scan resolution", .ws0, .lit "(x", .optc ',', .ws0, .lit "y)", .ws0, .lit ":",
   .ws0, .capDigits, .ws1, .capDigits]

/-- A pattern chain with validated break: the first pattern whose match's
first group passes the conversion/validation `f` supplies the value
(`for pattern ...: if match: v = f(...); if v: store; break`). -/
def chainValue {α : Type} (pats : List (List Tok)) (f : String → Option α)
    (cs : List Char) : Option α :=
  pats.findSome? (fun p => (group1 (searchToks true p cs)).bind f)

/-- A pattern chain with unconditional break: the first pattern that matches
supplies the match (`for pattern ...: if match: ...; break`). -/
def firstMatch (pats : List (List Tok)) (cs : List Char) :
    Option (List (List Char)) :=
  pats.findSome? (fun p => searchToks true p cs)

/-- Conversion for string-valued fields: `safe_str(match.group(1).strip())`
validated to be non-empty. -/
def nonEmptyStr (g : String) : Option String :=
  let v := safe_str (stripStr g)
  if v = "" then none else some v

/-- Conversion for `[ms]` time fields: `safe_float` validated positive,
converted to seconds and rounded (`round(x_ms / 1000.0, 6)`). -/
def msToSec (g : String) : Option ℚ :=
  (safe_float g).bind (fun x => if 0 < x then some (round6 (x / 1000)) else none)

/-- Conversion for counters validated by truthiness (`if v:`). -/
def truthyZ (g : String) : Option ℤ :=
  (safe_int g).bind (fun v => if v = 0 then none else some v)

/-- Conversion for counters validated by `if v and v > 0:`. -/
def posZ (g : String) : Option ℤ :=
  (safe_int g).bind (fun v => if 0 < v then some v else none)

/-- Split the input at the first occurrence of `needle`: the prefix before
it and whether it was found. -/
def splitAtSubAux (needle : List Char) : List Char → (List Char × Bool)
  | [] => ([], false)
  | c :: rest =>
    if litAt needle (c :: rest) then ([], true)
    else
      let r := splitAtSubAux needle rest
      (c :: r.1, r.2)

/-- Drop one trailing newline (the `$` of the lazy group's lookahead can
stop just before a final newline). -/
def dropTrailingNl (cs : List Char) : List Char :=
  match cs.reverse with
  | '\n' :: r => r.reverse
  | _ => cs

/-- Match `r'# === IMAGE INFORMATION =+(.*?)(?=# ===|$)'` (with `re.DOTALL`,
case-sensitively) at the start of the input: the literal header, one or more
`'='`, then everything up to the next `'# ==='` or the end. -/
def imageSectionAt (cs : List Char) : Option (List Char) :=
  match dropLit false "# === IMAGE INFORMATION ".data cs with
  | some rest =>
    if (rest.takeWhile (fun c => c == '=')).isEmpty then none
    else
      let body := rest.dropWhile (fun c => c == '=')
      let r := splitAtSubAux "# ===".data body
      some (if r.2 then r.1 else dropTrailingNl r.1)
  | none => none

/-- The `re.search` for the image-information section. -/
def imageSectionGroup : List Char → Option (List Char)
  | [] => none
  | c :: cs =>
    match imageSectionAt (c :: cs) with
    | some g => some g
    | none => imageSectionGroup cs

/-- The first image row usable for the Philips rescale parameters: at least
12 whitespace-separated fields with a numeric first field; yields
`(safe_float(parts[10]), safe_float(parts[11]),
safe_float(parts[12]) if len(parts) > 12 else 1.0)`. -/
def rescaleTriple (lines : List (List Char)) :
    Option (Option ℚ × Option ℚ × Option ℚ) :=
  lines.findSome? (fun line =>
    let parts := splitWs (stripChars line)
    if 12 ≤ parts.length && isDigitWord (parts.headD []) then
      some (if 10 < parts.length then safe_float ⟨parts.getD 10 []⟩ else some 1,
            if 11 < parts.length then safe_float ⟨parts.getD 11 []⟩ else some 0,
            if 12 < parts.length then safe_float ⟨parts.getD 12 []⟩ else some 1)
    else none)

/-- `PhilipsRescaleSlope`: the row's slope if truthy, else the default
`1.0`. -/
def rescaleSlopeValue (t : Option (Option ℚ × Option ℚ × Option ℚ)) : ℚ :=
  match t with
  | some (some v, _, _) => if v = 0 then 1 else v
  | _ => 1

/-- `PhilipsRescaleIntercept`: the row's intercept if not `None`, else the
default `0.0`. -/
def rescaleInterceptValue (t : Option (Option ℚ × Option ℚ × Option ℚ)) : ℚ :=
  match t with
  | some (_, some v, _) => v
  | _ => 0

/-- `PhilipsScaleSlope`: the row's scale slope if truthy, else the default
`1.0`. -/
def rescaleScaleValue (t : Option (Option ℚ × Option ℚ × Option ℚ)) : ℚ :=
  match t with
  | some (_, _, some v) => if v = 0 then 1 else v
  | _ => 1

/-- The first image row usable for `ImageOrientationPatientDICOM`: at least
9 fields with a numeric first field and all of `parts[13..18]` parseable.
A row with exactly 18 fields raises `IndexError` on `parts[18]` in the
source and is skipped by the `except` clause, so 19 fields are required. -/
def orientationMatrixValue (lines : List (List Char)) : Option (List ℚ) :=
  lines.findSome? (fun line =>
    let parts := splitWs (stripChars line)
    if 9 ≤ parts.length && isDigitWord (parts.headD []) && 19 ≤ parts.length then
      match safe_float ⟨parts.getD 13 []⟩, safe_float ⟨parts.getD 14 []⟩,
            safe_float ⟨parts.getD 15 []⟩, safe_float ⟨parts.getD 16 []⟩,
            safe_float ⟨parts.getD 17 []⟩, safe_float ⟨parts.getD 18 []⟩ with
      | some a, some b, some c, some d, some e, some f => some [a, b, c, d, e, f]
      | _, _, _, _, _, _ => none
    else none)

/-- `SliceEncodingDirection` of the targeted extractor: the first matching
orientation pattern's code mapped `1 ↦ k`, `2 ↦ i`, `3 ↦ j`, any other
match or no match defaulting to `'k'`. -/
def sliceEncodingDirectionTargeted (cs : List Char) : String :=
  match firstMatch [patOrient1, patOrient2] cs with
  | some gs =>
    match (gs.head?.map (fun l => (⟨l⟩ : String))).bind safe_int with
    | some 1 => "k"
    | some 2 => "i"
    | some 3 => "j"
    | _ => "k"
  | none => "k"

/-- The water-fat shift as read by the targeted extractor: first matching
pattern, `safe_float`, no validation. -/
def wfsValueTargeted (cs : List Char) : Option ℚ :=
  (group1 (firstMatch [patWfs1, patWfs2, patWfs3] cs)).bind safe_float

/-- The phase-encode reconstruction dimension as read by the targeted
extractor: first matching pattern's second group, `safe_int`, kept only if
truthy. -/
def reconPEValueTargeted (cs : List Char) : Option ℕ :=
  ((group2 (firstMatch [patRecon1, patRecon2, patRecon3] cs)).bind safe_int).bind
    (fun v => if v = 0 then none else some v.toNat)

/-- Count of non-internal keys, `len([k for k in bids_fields if not
k.startswith('_')])`. -/
def countBids (f : List (String × JValue)) : ℕ :=
  ((f.map Prod.fst).filter (fun k => !(pyStartsWith "_" k))).length

/-- The `_ProcessingInfo` block of the targeted extractor
(`nesda_json_updater.py` lines 443-451). -/
def targetedProcessingInfo (now : String) (f : List (String × JValue)) : JValue :=
  JValue.jobj
    [("ExtractedBy", JValue.jstr "nesda_targeted_bids_updater.py"),
     ("ExtractionDateTime", JValue.jstr now),
     ("ProcessedBy", JValue.jstr "JulianGaviriaL"),
     ("DataCollection", JValue.jstr "NESDA"),
     ("TargetedSubjects", JValue.jnum (TARGET_SUBJECTS.length : ℚ)),
     ("AcquisitionType", JValue.jstr "interleaved_ascending"),
     ("ParametersExtracted", JValue.jnum (countBids f : ℚ))]

/-- `extract_complete_philips_params(par_file_path)` on the file's text
`content`; `now` is `datetime.now().isoformat()`. -/
def extract_complete_philips_params (content now : String) :
    List (String × JValue) :=
  let cs := content.data
  let image_lines :=
    match imageSectionGroup cs with
    | some g => splitNl g
    | none => []
  let f : List (String × JValue) := []
  let f := setKey "Manufacturer" (JValue.jstr "Philips") f
  let f := setKey "PatientPosition"
    (JValue.jstr ((chainValue [patPosition1, patPosition2] nonEmptyStr cs).getD "HFS")) f
  let f := setKey "SeriesDescription"
    (JValue.jstr ((chainValue [patSeriesType, patSeriesDesc1, patSeriesDesc2]
      nonEmptyStr cs).getD "fMRI_BOLD_REST")) f
  let f := setKey "ProtocolName"
    (JValue.jstr ((chainValue [patProtocol1, patProtocol2, patProtocol3]
      nonEmptyStr cs).getD "NESDA_REST_fMRI")) f
  let f := setKey "SeriesNumber"
    (JValue.jnum (((chainValue [patSeriesNr1, patSeriesNr2, patSeriesNr3]
      truthyZ cs).getD 1 : ℤ) : ℚ)) f
  let f := setKey "AcquisitionNumber"
    (JValue.jnum (((chainValue [patAcqNr1, patAcqNr2, patAcqNr3]
      truthyZ cs).getD 1 : ℤ) : ℚ)) f
  let f := setKey "ImageComments" (JValue.jstr "NESDA") f
  let rt := rescaleTriple image_lines
  let f := setKey "PhilipsRescaleSlope" (JValue.jnum (rescaleSlopeValue rt)) f
  let f := setKey "PhilipsRescaleIntercept" (JValue.jnum (rescaleInterceptValue rt)) f
  let f := setKey "PhilipsScaleSlope" (JValue.jnum (rescaleScaleValue rt)) f
  let f := setKey "UsePhilipsFloatNotDisplayScaling" (JValue.jbool true) f
  let f := setKey "EchoTime"
    (JValue.jnum ((chainValue [patTE1, patTE2, patTE3] msToSec cs).getD 0.028)) f
  let f := setKey "ImageOrientationPatientDICOM"
    (JValue.jarr (((orientationMatrixValue image_lines).getD
      [1, 0, 0, 0, 1, 0]).map JValue.jnum)) f
  let trv := chainValue [patTR1, patTR2, patTR3] msToSec cs
  let f :=
    match trv with
    | some tr => setKey "RepetitionTime" (JValue.jnum tr) f
    | none => f
  let nsv := chainValue [patSlices1, patSlices2, patSlices3] posZ cs
  let f :=
    match trv, nsv with
    | some tr, some n =>
      setKey "SliceTiming" (JValue.jarr ((sliceTiming tr n.toNat).map JValue.jnum)) f
    | _, _ => f
  let f := setKey "TaskName" (JValue.jstr "rest") f
  let f := setKey "SliceEncodingDirection"
    (JValue.jstr (sliceEncodingDirectionTargeted cs)) f
  let f := setKey "PhaseEncodingDirection"
    (JValue.jstr (phaseEncodingDirectionDefaulted
      (group1 (firstMatch [patPrep1, patPrep2, patPrep3] cs)))) f
  let f := setKey "EffectiveEchoSpacing"
    (JValue.jnum (effectiveEchoSpacingTargeted (wfsValueTargeted cs)
      (reconPEValueTargeted cs))) f
  setKey "_ProcessingInfo" (targetedProcessingInfo now f) f

/-! ### Supporting lemmas for C10 -/

theorem lookupKey_setKey (k k' : String) (v : JValue) (d : List (String × JValue)) :
    lookupKey k (setKey k' v d) = if k' = k then some v else lookupKey k d := by
  by_cases h : k' = k
  · subst h
    simp [lookupKey_setKey_self]
  · simp [lookupKey_setKey_ne k k' v d h, h]

theorem setKey_ne_nil (k : String) (v : JValue) (d : List (String × JValue)) :
    setKey k v d ≠ [] := by
  cases d with
  | nil => simp [setKey]
  | cons p t =>
    obtain ⟨k', v'⟩ := p
    by_cases h : k' = k <;> simp [setKey, h]

theorem extract_lookup_manufacturer (content now : String) :
    lookupKey "Manufacturer" (extract_complete_philips_params content now)
      = some (JValue.jstr "Philips") := by
  rcases htr : chainValue [patTR1, patTR2, patTR3] msToSec content.data with _ | tr <;>
    rcases hns : chainValue [patSlices1, patSlices2, patSlices3] posZ content.data
      with _ | n <;>
    simp [extract_complete_philips_params, htr, hns, lookupKey_setKey]

theorem extract_lookup_taskname (content now : String) :
    lookupKey "TaskName" (extract_complete_philips_params content now)
      = some (JValue.jstr "rest") := by
  rcases htr : chainValue [patTR1, patTR2, patTR3] msToSec content.data with _ | tr <;>
    rcases hns : chainValue [patSlices1, patSlices2, patSlices3] posZ content.data
      with _ | n <;>
    simp [extract_complete_philips_params, htr, hns, lookupKey_setKey]

theorem extract_lookup_echotime (content now : String) :
    lookupKey "EchoTime" (extract_complete_philips_params content now)
      = some (JValue.jnum
          ((chainValue [patTE1, patTE2, patTE3] msToSec content.data).getD 0.028)) := by
  rcases htr : chainValue [patTR1, patTR2, patTR3] msToSec content.data with _ | tr <;>
    rcases hns : chainValue [patSlices1, patSlices2, patSlices3] posZ content.data
      with _ | n <;>
    simp [extract_complete_philips_params, htr, hns, lookupKey_setKey]

theorem extract_lookup_ees (content now : String) :
    lookupKey "EffectiveEchoSpacing" (extract_complete_philips_params content now)
      = some (JValue.jnum (effectiveEchoSpacingTargeted (wfsValueTargeted content.data)
          (reconPEValueTargeted content.data))) := by
  rcases htr : chainValue [patTR1, patTR2, patTR3] msToSec content.data with _ | tr <;>
    rcases hns : chainValue [patSlices1, patSlices2, patSlices3] posZ content.data
      with _ | n <;>
    simp [extract_complete_philips_params, htr, hns, lookupKey_setKey]

theorem extract_lookup_ped (content now : String) :
    lookupKey "PhaseEncodingDirection" (extract_complete_philips_params content now)
      = some (JValue.jstr (phaseEncodingDirectionDefaulted
          (group1 (firstMatch [patPrep1, patPrep2, patPrep3] content.data)))) := by
  rcases htr : chainValue [patTR1, patTR2, patTR3] msToSec content.data with _ | tr <;>
    rcases hns : chainValue [patSlices1, patSlices2, patSlices3] posZ content.data
      with _ | n <;>
    simp [extract_complete_philips_params, htr, hns, lookupKey_setKey]

theorem extract_nonempty (content now : String) :
    extract_complete_philips_params content now ≠ [] := by
  rcases htr : chainValue [patTR1, patTR2, patTR3] msToSec content.data with _ | tr <;>
    rcases hns : chainValue [patSlices1, patSlices2, patSlices3] posZ content.data
      with _ | n <;>
    simp only [extract_complete_philips_params, htr, hns] <;>
    exact setKey_ne_nil _ _ _

/-- C10.  For every header text the targeted extractor returns a field set
that contains `Manufacturer = 'Philips'` and `TaskName = 'rest'`, always
contains `EchoTime` (`0.028` seconds when no echo-time pattern matches),
`EffectiveEchoSpacing` (`0.0005` seconds when the water-fat shift or the
reconstruction matrix is missing) and `PhaseEncodingDirection` (`'j-'` when
no preparation-direction pattern matches); on the empty header all three
defaults appear; and the result is never the empty mapping (in the source
only an exception during processing yields `{}`). -/
theorem extract_complete_philips_params_defaults (content now : String) :
    lookupKey "Manufacturer" (extract_complete_philips_params content now)
        = some (JValue.jstr "Philips")
      ∧ lookupKey "TaskName" (extract_complete_philips_params content now)
        = some (JValue.jstr "rest")
      ∧ (∃ v, lookupKey "EchoTime" (extract_complete_philips_params content now)
        = some v)
      ∧ (chainValue [patTE1, patTE2, patTE3] msToSec content.data = none →
          lookupKey "EchoTime" (extract_complete_philips_params content now)
            = some (JValue.jnum 0.028))
      ∧ (∃ v, lookupKey "EffectiveEchoSpacing"
          (extract_complete_philips_params content now) = some v)
      ∧ (wfsValueTargeted content.data = none ∨ reconPEValueTargeted content.data = none →
          lookupKey "EffectiveEchoSpacing" (extract_complete_philips_params content now)
            = some (JValue.jnum 0.0005))
      ∧ (∃ v, lookupKey "PhaseEncodingDirection"
          (extract_complete_philips_params content now) = some v)
      ∧ (group1 (firstMatch [patPrep1, patPrep2, patPrep3] content.data) = none →
          lookupKey "PhaseEncodingDirection" (extract_complete_philips_params content now)
            = some (JValue.jstr "j-"))
      ∧ lookupKey "EchoTime" (extract_complete_philips_params "" now)
        = some (JValue.jnum 0.028)
      ∧ lookupKey "EffectiveEchoSpacing" (extract_complete_philips_params "" now)
        = some (JValue.jnum 0.0005)
      ∧ lookupKey "PhaseEncodingDirection" (extract_complete_philips_params "" now)
        = some (JValue.jstr "j-")
      ∧ extract_complete_philips_params content now ≠ [] := by
  refine ⟨extract_lookup_manufacturer content now, extract_lookup_taskname content now,
    ⟨_, extract_lookup_echotime content now⟩, ?_,
    ⟨_, extract_lookup_ees content now⟩, ?_,
    ⟨_, extract_lookup_ped content now⟩, ?_, ?_, ?_, ?_,
    extract_nonempty content now⟩
  · intro h
    rw [extract_lookup_echotime]
    simp [h]
  · intro h
    rw [extract_lookup_ees]
    rcases h with h | h
    · rw [h]
      rcases reconPEValueTargeted content.data with _ | r <;> rfl
    · rw [h]
      rcases wfsValueTargeted content.data with _ | w <;> rfl
  · intro h
    rw [extract_lookup_ped, h]
    rfl
  · rw [extract_lookup_echotime]
    rfl
  · rw [extract_lookup_ees]
    rfl
  · rw [extract_lookup_ped]
    rfl

/-- Witness for C10 on the header text `"x"` (which matches no pattern). -/
theorem extract_complete_philips_params_defaults_witness :
    lookupKey "EchoTime" (extract_complete_philips_params "x" "")
        = some (JValue.jnum 0.028)
      ∧ lookupKey "EffectiveEchoSpacing" (extract_complete_philips_params "x" "")
        = some (JValue.jnum 0.0005)
      ∧ lookupKey "PhaseEncodingDirection" (extract_complete_philips_params "x" "")
        = some (JValue.jstr "j-") :=
  ⟨(extract_complete_philips_params_defaults "x" "").2.2.2.1 rfl,
   (extract_complete_philips_params_defaults "x" "").2.2.2.2.2.1 (Or.inl rfl),
   (extract_complete_philips_params_defaults "x" "").2.2.2.2.2.2.2.1 rfl⟩
